import Mathlib

/-!
# libxray: lifecycle management and latency probing

A shallow embedding of `xray.go`.  The engine (`core.LoadConfig`, `core.New`,
`Instance.Start`, `Instance.Close`), the HTTP library (`http.NewRequest`,
`Client.Do`) and the operating system are external collaborators: they appear as
oracles of an environment `Env`, and every call made to them is appended to a
trace kept in the program state `World`, next to the package-level variable
`coreServer`.  A run-time panic is the result `none`.
-/

namespace Libxray

/-! ## Data model -/

/-- Go `error` value: this layer only ever observes its `Error()` text. -/
structure GoError where
  msg : String
deriving DecidableEq, Repr

/-- Identity of a non-nil `*core.Instance`. -/
abbrev Instance := Nat

/-- Identity of a loaded `*core.Config`. -/
abbrev Config := Nat

/-- A non-nil `*http.Request`, as `http.NewRequest` builds it. -/
structure Request where
  Method : String
  URL : String
deriving DecidableEq, Repr

/-- Calls into the external collaborators, in the order they were made.  `Do` is a
request handed to `c.Do` by a client that dials through `inst`. -/
inductive Event where
  | Setenv (key value : String)
  | LoadConfig (format file : String)
  | New (config : Config)
  | Start (inst : Instance)
  | Close (inst : Instance)
  | Do (inst : Instance) (timeout : Int) (req : Request)
  | GC
deriving DecidableEq, Repr

/-- Program state: the package-level `coreServer` (nil is `none`) and the
trace of external calls made so far. -/
structure World where
  coreServer : Option Instance
  trace : List Event
deriving DecidableEq, Repr

/-- Append one external call to the trace. -/
def World.emit (w : World) (e : Event) : World :=
  { w with trace := w.trace ++ [e] }

/-- Two's-complement wrap of an integer into the `int64` range. -/
def wrap64 (x : Int) : Int := (x + 2 ^ 63) % 2 ^ 64 - 2 ^ 63

/-- A `time.Duration`: an `int64` count of nanoseconds. -/
structure Duration where
  ns : Int
  lo : -(2 ^ 63) ≤ ns
  hi : ns < 2 ^ 63
deriving DecidableEq

/-- The method `Duration.Milliseconds`: `int64(d) / 1e6`, truncated toward zero. -/
def Duration.Milliseconds (d : Duration) : Int := Int.tdiv d.ns 1000000

/-- The external collaborators.  Every oracle but `NewRequest` sees the trace of
the calls made before it, so its answer may depend on the whole history;
`http.NewRequest` only parses its arguments. -/
structure Env where
  LoadConfig : List Event → String → String → Except GoError Config
  New : List Event → Config → Except GoError Instance
  Start : List Event → Instance → Option GoError
  Close : List Event → Instance → Option GoError
  NewRequest : String → String → Except GoError Request
  Do : List Event → Instance → Int → Request → Except GoError Duration

/-- The constant `pingDelayTimeout`. -/
def pingDelayTimeout : Int := 11000

/-- The constant `pingDelayError`. -/
def pingDelayError : Int := 10000

/-! ## Engine factory and lifecycle manager -/

/-- The function `startXray`: load the configuration, then build the instance. -/
def startXray (env : Env) (configFile : String) (w : World) :
    Except GoError Instance × World :=
  let w1 := w.emit (.LoadConfig "json" configFile)
  match env.LoadConfig w.trace "json" configFile with
  | .error err => (.error err, w1)
  | .ok config =>
    let w2 := w1.emit (.New config)
    match env.New w1.trace config with
    | .error err => (.error err, w2)
    | .ok server => (.ok server, w2)

/-- The function `initEnv`. -/
def initEnv (datDir maxMemory : String) (w : World) : World :=
  let w1 := w.emit (.Setenv "xray.location.asset" datDir)
  if maxMemory ≠ "" then w1.emit (.Setenv "GOMEMLIMIT" maxMemory) else w1

/-- The function `RunXray`.  The statement `coreServer, err := startXray(config)`
is a short variable declaration inside the function body: both names on its
left are new in that scope, so `coreServer` below is a local variable and the
package-level `coreServer` of `World` is neither read nor assigned. -/
def RunXray (env : Env) (datDir config maxMemory : String) (w : World) :
    String × World :=
  let w1 := initEnv datDir maxMemory w
  match startXray env config w1 with
  | (.error err, w2) => (err.msg, w2)
  | (.ok coreServer, w2) =>
    let w3 := w2.emit (.Start coreServer)
    match env.Start w2.trace coreServer with
    | some err => (err.msg, w3)
    | none => ("", w3.emit .GC)

/-- The function `StopXray`. -/
def StopXray (env : Env) (w : World) : String × World :=
  match w.coreServer with
  | some inst =>
    let err := env.Close w.trace inst
    let w1 := w.emit (.Close inst)
    let w2 := { w1 with coreServer := none }
    match err with
    | some e => (e.msg, w2)
    | none => ("", w2)
  | none => ("", w)

/-! ## Probe transport and delay estimator -/

/-- Conversion `time.Duration(x)` of an integer, wrapped into `int64`. -/
def Duration.ofInt (x : Int) : Duration :=
  ⟨wrap64 x, by unfold wrap64; omega, by unfold wrap64; omega⟩

/-- The constant `time.Second`, in nanoseconds. -/
def Second : Int := 1000000000

/-- The `*http.Client` built by `coreHTTPClient`: it dials through `inst`. -/
structure Client where
  inst : Instance
  Timeout : Duration
  DisableKeepAlives : Bool
deriving DecidableEq

/-- The function `coreHTTPClient`; a nil instance is `none`. -/
def coreHTTPClient (inst : Option Instance) (timeout : Duration) :
    Except GoError Client :=
  match inst with
  | none => .error ⟨"core instance nil"⟩
  | some i => .ok { inst := i, Timeout := timeout, DisableKeepAlives := true }

/-- The function `coreHTTPRequest`: one GET through the client; `none` stands for
a run-time panic.  The error of `http.NewRequest` is discarded, so for a url it
rejects `req` is nil and `c.Do(req)` dereferences it: the call panics before any
request is issued.  Otherwise the oracle `Env.Do` answers with the error of
`c.Do(req)`, or with the duration that `time.Since(start)` reads once `c.Do(req)`
has returned without error. -/
def coreHTTPRequest (env : Env) (c : Client) (url : String) (w : World) :
    Option Int × World :=
  match env.NewRequest "GET" url with
  | .error _ => (none, w)
  | .ok req =>
    let w1 := w.emit (.Do c.inst c.Timeout.ns req)
    match env.Do w.trace c.inst c.Timeout.ns req with
    | .error _ => (some pingDelayTimeout, w1)
    | .ok elapsed => (some elapsed.Milliseconds, w1)

/-- The elapsed milliseconds of the request a probe makes in state `w`, when that
request is built and returns without error (`none` otherwise). -/
def elapsedOf (env : Env) (c : Client) (url : String) (w : World) : Option Int :=
  match env.NewRequest "GET" url with
  | .error _ => none
  | .ok req =>
    match env.Do w.trace c.inst c.Timeout.ns req with
    | .error _ => none
    | .ok elapsed => some elapsed.Milliseconds

/-- Local variables of the loop of `measureDelay`. -/
structure Acc where
  delaySum : Int
  count : Int
  isValid : Bool
deriving DecidableEq, Repr

/-- One iteration of the loop body of `measureDelay` on a probe result. -/
def Acc.step (a : Acc) (delay : Int) : Acc :=
  if delay ≠ pingDelayTimeout then
    { delaySum := wrap64 (a.delaySum + delay), count := wrap64 (a.count + 1), isValid := true }
  else a

/-- The loop `for i := 0; i < times; i++` of `measureDelay`, with `n` iterations
left; a panic in a probe leaves the loop at once (`none`). -/
def measureLoop (env : Env) (c : Client) (url : String) :
    Nat → Acc → World → Option Acc × World
  | 0, a, w => (some a, w)
  | n + 1, a, w =>
    match coreHTTPRequest env c url w with
    | (none, w1) => (none, w1)
    | (some delay, w1) => measureLoop env c url n (a.step delay) w1

/-- Division of `int64` values: a zero divisor is a run-time panic (`none`),
otherwise the quotient is truncated toward zero and wrapped. -/
def int64Div (a b : Int) : Option Int :=
  if b = 0 then none else some (wrap64 (Int.tdiv a b))

/-- The function `measureDelay`; `none` stands for a run-time panic. -/
def measureDelay (env : Env) (inst : Option Instance) (timeout : Duration)
    (url : String) (w : World) : Option Int × World :=
  match coreHTTPClient inst timeout with
  | .error _ => (some pingDelayError, w)
  | .ok c =>
    let times := 3
    match measureLoop env c url times ⟨0, 0, false⟩ w with
    | (none, w1) => (none, w1)
    | (some a, w1) =>
      if !a.isValid then (some pingDelayTimeout, w1)
      else (int64Div a.delaySum a.count, w1)

/-- The function `Ping`; `none` stands for a run-time panic, which leaves `Ping`
without a return value.  `defer server.Close()` is registered only after `Start`
has succeeded and runs when the function leaves, also on a panic.  The
parameter `timeout` is a Go `int`; `time.Second*time.Duration(timeout)` is an
`int64` product. -/
def Ping (env : Env) (datDir config : String) (timeout : Int) (url : String)
    (w : World) : Option Int × World :=
  let w1 := initEnv datDir "" w
  match startXray env config w1 with
  | (.error _, w2) => (some pingDelayError, w2)
  | (.ok server, w2) =>
    let w3 := w2.emit (.Start server)
    match env.Start w2.trace server with
    | some _ => (some pingDelayError, w3)
    | none =>
      let (delay, w4) :=
        measureDelay env (some server) (Duration.ofInt (Second * wrap64 timeout)) url w3
      (delay, w4.emit (.Close server))

/-- The delay estimate in the words of the specification: the timeout sentinel
when no sample succeeded, otherwise the truncated mean of the successful ones. -/
def specDelay (samples : List Int) : Int :=
  let ok := samples.filter (fun r => r ≠ pingDelayTimeout)
  if ok = [] then pingDelayTimeout else Int.tdiv ok.sum ok.length

/-! ## Free-port discovery -/

/-- Identity of a resolved `*net.TCPAddr`. -/
abbrev TCPAddr := Nat

/-- A `*net.TCPListener`; `Port` is `l.Addr().(*net.TCPAddr).Port`. -/
structure Listener where
  Port : Int
deriving DecidableEq, Repr

/-- The operating system as seen by `GetFreePorts`: the answers of
`net.ResolveTCPAddr` and `net.ListenTCP` in loop iteration `i`. -/
structure NetEnv where
  ResolveTCPAddr : Nat → String → String → Except GoError TCPAddr
  ListenTCP : Nat → String → TCPAddr → Except GoError Listener

/-- The predicate `unicode.IsSpace` on a code point. -/
def isSpace (c : Char) : Bool :=
  let n := c.toNat
  (decide (9 ≤ n) && decide (n ≤ 13)) || decide (n = 32) || decide (n = 0x85) ||
  decide (n = 0xA0) || decide (n = 0x1680) || (decide (0x2000 ≤ n) && decide (n ≤ 0x200A)) ||
  decide (n = 0x2028) || decide (n = 0x2029) || decide (n = 0x202F) ||
  decide (n = 0x205F) || decide (n = 0x3000)

/-- Decimal rendering of a Go `int` (the verb `%d`): a minus sign for a
negative value, then the digits of the magnitude. -/
def itoa (i : Int) : List Char :=
  if i < 0 then '-' :: Nat.toDigits 10 i.natAbs else Nat.toDigits 10 i.toNat

/-- The function `strings.Join`. -/
def Join : List (List Char) → List Char → List Char
  | [], _ => []
  | [a], _ => a
  | a :: b :: rest, sep => a ++ sep ++ Join (b :: rest) sep

/-- The function `fmt.Sprint` on a `[]int`: the elements in decimal, separated
by one space, between square brackets (a nil slice prints as `[]`). -/
def Sprint (ports : List Int) : List Char :=
  ['['] ++ Join (ports.map itoa) [' '] ++ [']']

/-- The scan of `strings.Fields`: `cur` is the field being read (empty when
no field has started). -/
def FieldsAux : List Char → List Char → List (List Char)
  | [], cur => if cur.isEmpty then [] else [cur]
  | ch :: s, cur =>
    if isSpace ch then
      if cur.isEmpty then FieldsAux s [] else cur :: FieldsAux s []
    else FieldsAux s (cur ++ [ch])

/-- The function `strings.Fields`: the maximal runs of non-space characters. -/
def Fields (s : List Char) : List (List Char) := FieldsAux s []

/-- The function `strings.Trim`: drop leading and trailing characters of `cutset`. -/
def Trim (s cutset : List Char) : List Char :=
  ((s.dropWhile (fun c => cutset.elem c)).reverse.dropWhile (fun c => cutset.elem c)).reverse

/-- The loop of `GetFreePorts` with `n` iterations left at index `i`: the
ports collected (`none` after a failed step) and the listeners whose deferred
`Close` is pending, last registered first. -/
def portsLoop (net : NetEnv) :
    Nat → Nat → List Int → List Listener → Option (List Int) × List Listener
  | 0, _, ports, deferred => (some ports, deferred)
  | n + 1, i, ports, deferred =>
    match net.ResolveTCPAddr i "tcp" "localhost:0" with
    | .error _ => (none, deferred)
    | .ok addr =>
      match net.ListenTCP i "tcp" addr with
      | .error _ => (none, deferred)
      | .ok l => portsLoop net n (i + 1) (ports ++ [l.Port]) (l :: deferred)

/-- The function `GetFreePorts`: the returned string, and the listeners closed
by the deferred calls in the order they run. -/
def GetFreePorts (net : NetEnv) (count : Int) : String × List Listener :=
  match portsLoop net count.toNat 0 [] [] with
  | (none, deferred) => ("", deferred)
  | (some ports, deferred) =>
    (String.mk (Trim (Join (Fields (Sprint ports)) [':']) ['[', ']']), deferred)

/-- Iteration `i` of the loop succeeds and the listener is bound to port `p`. -/
def StepYields (net : NetEnv) (i : Nat) (p : Int) : Prop :=
  ∃ addr l, net.ResolveTCPAddr i "tcp" "localhost:0" = .ok addr ∧
    net.ListenTCP i "tcp" addr = .ok l ∧ l.Port = p

/-- Iteration `i` of the loop fails, at the resolve step or at the listen step. -/
def StepFails (net : NetEnv) (i : Nat) : Prop :=
  (∃ e, net.ResolveTCPAddr i "tcp" "localhost:0" = .error e) ∨
  ∃ addr e, net.ResolveTCPAddr i "tcp" "localhost:0" = .ok addr ∧
    net.ListenTCP i "tcp" addr = .error e

/-- Append the closing bracket to the last field. -/
def closeLast : List (List Char) → List (List Char)
  | [] => []
  | [a] => [a ++ [']']]
  | a :: b :: rest => a :: closeLast (b :: rest)

/-- The ten decimal digit characters. -/
def digitChars : List Char := ['0', '1', '2', '3', '4', '5', '6', '7', '8', '9']

/-- A rendered integer: non-empty, made of digits and the minus sign. -/
def IsWord (w : List Char) : Prop := w ≠ [] ∧ ∀ c ∈ w, c ∈ '-' :: digitChars

/-- An operating system that hands out the given ports, one per iteration. -/
def netOf (ports : List Int) : NetEnv where
  ResolveTCPAddr := fun i _ _ => .ok i
  ListenTCP := fun i _ _ =>
    match ports.get? i with
    | some p => .ok ⟨p⟩
    | none => .error ⟨"listen tcp: too many open files"⟩

/-! ## Trace predicates and concrete environments -/

/-- Whether an event is a probe request. -/
def Event.isDo : Event → Bool
  | .Do _ _ _ => true
  | _ => false

/-- Whether an event is a call of `Instance.Start`. -/
def Event.isStart : Event → Bool
  | .Start _ => true
  | _ => false

/-- Whether an event belongs to `initEnv` or `startXray`. -/
def Event.isSetup : Event → Bool
  | .Setenv _ _ => true
  | .LoadConfig _ _ => true
  | .New _ => true
  | _ => false

/-- The same trace with another content of the shared slot. -/
def World.withServer (w : World) (x : Option Instance) : World := ⟨x, w.trace⟩

/-- A state in which the shared slot holds instance 7. -/
def World.managed : World := ⟨some 7, [.Start 7]⟩

/-- A url parser that rejects the url with a blank in its host name. -/
def parseRequest (method url : String) : Except GoError Request :=
  if url = "http://bad host/" then .error ⟨"parse: invalid character in host name"⟩
  else .ok ⟨method, url⟩

/-- The initial program state: no managed instance, nothing called yet. -/
def World.init : World := ⟨none, []⟩

/-- An engine that loads, builds instance 7, starts and closes without error;
every probe fails. -/
def envOK : Env where
  LoadConfig := fun _ _ _ => .ok 0
  New := fun _ _ => .ok 7
  Start := fun _ _ => none
  Close := fun _ _ => none
  NewRequest := parseRequest
  Do := fun _ _ _ _ => .error ⟨"context deadline exceeded"⟩

/-- An engine whose configuration loader rejects every document. -/
def envBadConfig : Env where
  LoadConfig := fun _ _ _ => .error ⟨"failed to load config"⟩
  New := fun _ _ => .ok 7
  Start := fun _ _ => none
  Close := fun _ _ => none
  NewRequest := parseRequest
  Do := fun _ _ _ _ => .error ⟨"context deadline exceeded"⟩

/-- An engine that builds instance 7, whose `Start` fails. -/
def envStartFails : Env where
  LoadConfig := fun _ _ _ => .ok 0
  New := fun _ _ => .ok 7
  Start := fun _ _ => some ⟨"failed to listen"⟩
  Close := fun _ _ => none
  NewRequest := parseRequest
  Do := fun _ _ _ _ => .error ⟨"context deadline exceeded"⟩

/-- An engine whose `Close` fails. -/
def envCloseFails : Env where
  LoadConfig := fun _ _ _ => .ok 0
  New := fun _ _ => .ok 7
  Start := fun _ _ => none
  Close := fun _ _ => some ⟨"close failed"⟩
  NewRequest := parseRequest
  Do := fun _ _ _ _ => .error ⟨"context deadline exceeded"⟩

/-- An engine whose `Start` fails with an error of empty text. -/
def envEmptyError : Env where
  LoadConfig := fun _ _ _ => .ok 0
  New := fun _ _ => .ok 7
  Start := fun _ _ => some ⟨""⟩
  Close := fun _ _ => none
  NewRequest := parseRequest
  Do := fun _ _ _ _ => .error ⟨"context deadline exceeded"⟩

/-- A duration of the given number of milliseconds, reduced into one day. -/
def msDuration (ms : Nat) : Duration :=
  ⟨((ms % 86400000 : Nat) : Int) * 1000000, by omega, by omega⟩

/-- An engine through which the first request of a run takes 120 ms, the second
fails and every later one takes 81 ms. -/
def envMixed : Env where
  LoadConfig := fun _ _ _ => .ok 0
  New := fun _ _ => .ok 7
  Start := fun _ _ => none
  Close := fun _ _ => none
  NewRequest := parseRequest
  Do := fun t _ _ _ =>
    match (t.filter Event.isDo).length with
    | 0 => .ok (msDuration 120)
    | 1 => .error ⟨"context deadline exceeded"⟩
    | _ => .ok (msDuration 81)

/-- An engine through which every request succeeds after exactly 11000 ms. -/
def envSlow : Env where
  LoadConfig := fun _ _ _ => .ok 0
  New := fun _ _ => .ok 7
  Start := fun _ _ => none
  Close := fun _ _ => none
  NewRequest := parseRequest
  Do := fun _ _ _ _ => .ok (msDuration 11000)

/-! ## Arithmetic of `int64` -/

theorem wrap64_of_bounds {x : Int} (h1 : -(2 ^ 63) ≤ x) (h2 : x < 2 ^ 63) :
    wrap64 x = x := by
  unfold wrap64; omega

/-- A truncated quotient stays between any bounds of the mean. -/
theorem tdiv_between {S lo hi k : Int} (hk : 0 < k) (h1 : lo * k ≤ S)
    (h2 : S ≤ hi * k) : lo ≤ Int.tdiv S k ∧ Int.tdiv S k ≤ hi := by
  rcases le_or_lt 0 S with hS | hS
  · rw [Int.tdiv_eq_ediv hS hk.le]
    exact ⟨Int.le_ediv_of_mul_le hk h1, Int.ediv_le_of_le_mul hk h2⟩
  · have e : Int.tdiv S k = -((-S) / k) := by
      have t := Int.neg_tdiv (-S) k
      rw [neg_neg] at t
      rw [t, Int.tdiv_eq_ediv (by omega) hk.le]
    have a1 : (-S) / k ≤ -lo := Int.ediv_le_of_le_mul hk (by rw [neg_mul]; omega)
    have a2 : -hi ≤ (-S) / k := Int.le_ediv_of_mul_le hk (by rw [neg_mul]; omega)
    rw [e]
    omega

/-- A duration in milliseconds is far inside the `int64` range. -/
theorem Milliseconds_bound (d : Duration) :
    -9223372036855 ≤ d.Milliseconds ∧ d.Milliseconds ≤ 9223372036855 := by
  have lo := d.lo
  have hi := d.hi
  exact tdiv_between (by norm_num) (by omega) (by omega)

/-- A truncated mean of values far inside the range is not changed by the wrap. -/
theorem wrap64_tdiv {S k : Int} (hk : 0 < k) (h1 : -9223372036855 * k ≤ S)
    (h2 : S ≤ 9223372036855 * k) : wrap64 (Int.tdiv S k) = Int.tdiv S k := by
  have b := tdiv_between hk h1 h2
  exact wrap64_of_bounds (by omega) (by omega)

/-- The accumulator after three probe results, read off as the return value of
`measureDelay`, is the delay estimate of the specification. -/
theorem acc_three (r1 r2 r3 : Int)
    (h1 : -9223372036855 ≤ r1 ∧ r1 ≤ 9223372036855)
    (h2 : -9223372036855 ≤ r2 ∧ r2 ≤ 9223372036855)
    (h3 : -9223372036855 ≤ r3 ∧ r3 ≤ 9223372036855) :
    (if !((((⟨0, 0, false⟩ : Acc).step r1).step r2).step r3).isValid then some pingDelayTimeout
      else int64Div ((((⟨0, 0, false⟩ : Acc).step r1).step r2).step r3).delaySum
        ((((⟨0, 0, false⟩ : Acc).step r1).step r2).step r3).count) =
      some (specDelay [r1, r2, r3]) := by
  by_cases e1 : r1 = pingDelayTimeout <;> by_cases e2 : r2 = pingDelayTimeout <;>
    by_cases e3 : r3 = pingDelayTimeout <;>
    simp [Acc.step, specDelay, int64Div, e1, e2, e3]
  all_goals simp (disch := omega) only [wrap64_of_bounds, wrap64_tdiv]
  all_goals first
    | (refine ⟨by norm_num, ?_⟩; first | rfl | exact Int.tdiv_one _ | (congr 1; omega))

/-- The sum of a list lies between its length times any bounds of its elements. -/
theorem sum_between (lo hi : Int) (l : List Int) (h : ∀ r ∈ l, lo ≤ r ∧ r ≤ hi) :
    lo * (l.length : Int) ≤ l.sum ∧ l.sum ≤ hi * (l.length : Int) := by
  induction l with
  | nil => simp
  | cons a t ih =>
    have ha := h a (List.mem_cons_self a t)
    have ht := ih (fun r hr => h r (List.mem_cons_of_mem a hr))
    simp only [List.length_cons, List.sum_cons, Nat.cast_add, Nat.cast_one, mul_add, mul_one]
    omega

/-- The truncated mean of a non-empty list lies between any bounds of its elements. -/
theorem mean_between (lo hi : Int) (l : List Int) (hne : l ≠ [])
    (h : ∀ r ∈ l, lo ≤ r ∧ r ≤ hi) :
    lo ≤ Int.tdiv l.sum l.length ∧ Int.tdiv l.sum l.length ≤ hi := by
  have hk : (0 : Int) < (l.length : Int) := by
    have := List.length_pos.mpr hne
    omega
  have b := sum_between lo hi l h
  exact tdiv_between hk b.1 b.2

/-! ## Probes -/

/-- A probe whose request is built returns a value and logs one `Do` call. -/
theorem coreHTTPRequest_of_request (env : Env) (c : Client) (url : String) (w : World)
    (req : Request) (h : env.NewRequest "GET" url = .ok req) :
    coreHTTPRequest env c url w =
      (some ((elapsedOf env c url w).getD pingDelayTimeout),
        w.emit (.Do c.inst c.Timeout.ns req)) := by
  unfold coreHTTPRequest elapsedOf
  rw [h]
  simp only
  cases env.Do w.trace c.inst c.Timeout.ns req <;> rfl

/-- A probe at a url that `http.NewRequest` rejects panics before any request. -/
theorem coreHTTPRequest_of_reject (env : Env) (c : Client) (url : String) (w : World)
    (e : GoError) (h : env.NewRequest "GET" url = .error e) :
    coreHTTPRequest env c url w = (none, w) := by
  unfold coreHTTPRequest
  rw [h]

/-- An elapsed time in milliseconds is far inside the `int64` range. -/
theorem elapsedOf_bound (env : Env) (c : Client) (url : String) (w : World) :
    -9223372036855 ≤ (elapsedOf env c url w).getD pingDelayTimeout ∧
      (elapsedOf env c url w).getD pingDelayTimeout ≤ 9223372036855 := by
  unfold elapsedOf
  cases env.NewRequest "GET" url with
  | error e => simp [pingDelayTimeout]
  | ok req =>
    simp only
    cases env.Do w.trace c.inst c.Timeout.ns req with
    | error e => simp [pingDelayTimeout]
    | ok d => exact Milliseconds_bound d

/-- A probe that returns a value: its request was built, one `Do` call was logged,
and the value is the elapsed time of an error-free request or the sentinel. -/
theorem coreHTTPRequest_returns (env : Env) (c : Client) (url : String) (w w1 : World)
    (r : Int) (h : coreHTTPRequest env c url w = (some r, w1)) :
    ∃ req, env.NewRequest "GET" url = .ok req ∧
      w1 = w.emit (.Do c.inst c.Timeout.ns req) ∧
      r = (elapsedOf env c url w).getD pingDelayTimeout ∧
      -9223372036855 ≤ r ∧ r ≤ 9223372036855 := by
  cases hq : env.NewRequest "GET" url with
  | error e =>
    rw [coreHTTPRequest_of_reject env c url w e hq] at h
    simp at h
  | ok req =>
    rw [coreHTTPRequest_of_request env c url w req hq] at h
    simp only [Prod.mk.injEq, Option.some.injEq] at h
    have b := elapsedOf_bound env c url w
    rw [h.1] at b
    exact ⟨req, rfl, h.2.symm, h.1.symm, b⟩

/-- When `http.NewRequest` accepts the url, three successive probes return. -/
theorem three_probes_return (env : Env) (c : Client) (url : String) (w : World)
    (req : Request) (h : env.NewRequest "GET" url = .ok req) :
    ∃ r1 r2 r3 w1 w2 w3,
      coreHTTPRequest env c url w = (some r1, w1) ∧
      coreHTTPRequest env c url w1 = (some r2, w2) ∧
      coreHTTPRequest env c url w2 = (some r3, w3) :=
  ⟨_, _, _, _, _, _, coreHTTPRequest_of_request env c url w req h,
    coreHTTPRequest_of_request env c url _ req h,
    coreHTTPRequest_of_request env c url _ req h⟩

/-- Three iterations of the loop over probes that return. -/
theorem measureLoop_three (env : Env) (c : Client) (url : String) (a : Acc)
    (w w1 w2 w3 : World) (r1 r2 r3 : Int)
    (h1 : coreHTTPRequest env c url w = (some r1, w1))
    (h2 : coreHTTPRequest env c url w1 = (some r2, w2))
    (h3 : coreHTTPRequest env c url w2 = (some r3, w3)) :
    measureLoop env c url 3 a w = (some (((a.step r1).step r2).step r3), w3) := by
  simp [measureLoop, h1, h2, h3]

/-- With a non-nil instance and three probes that return, `measureDelay` returns the
delay estimate of the specification on their results. -/
theorem measureDelay_eq (env : Env) (inst : Instance) (timeout : Duration)
    (url : String) (w w1 w2 w3 : World) (r1 r2 r3 : Int)
    (h1 : coreHTTPRequest env ⟨inst, timeout, true⟩ url w = (some r1, w1))
    (h2 : coreHTTPRequest env ⟨inst, timeout, true⟩ url w1 = (some r2, w2))
    (h3 : coreHTTPRequest env ⟨inst, timeout, true⟩ url w2 = (some r3, w3)) :
    measureDelay env (some inst) timeout url w = (some (specDelay [r1, r2, r3]), w3) := by
  obtain ⟨_, _, _, _, b1⟩ := coreHTTPRequest_returns env _ url w w1 r1 h1
  obtain ⟨_, _, _, _, b2⟩ := coreHTTPRequest_returns env _ url w1 w2 r2 h2
  obtain ⟨_, _, _, _, b3⟩ := coreHTTPRequest_returns env _ url w2 w3 r3 h3
  unfold measureDelay coreHTTPClient
  simp only [measureLoop_three env _ url _ w w1 w2 w3 r1 r2 r3 h1 h2 h3]
  have h := acc_three r1 r2 r3 b1 b2 b3
  rw [← h]
  split <;> rfl

/-- With a non-nil instance and a url that `http.NewRequest` rejects, `measureDelay`
panics in its first probe, before any request. -/
theorem measureDelay_of_reject (env : Env) (inst : Instance) (timeout : Duration)
    (url : String) (w : World) (e : GoError) (h : env.NewRequest "GET" url = .error e) :
    measureDelay env (some inst) timeout url w = (none, w) := by
  unfold measureDelay coreHTTPClient
  simp [measureLoop, coreHTTPRequest_of_reject env _ url w e h]

/-- The trace after three probes that return. -/
theorem three_probes_trace (env : Env) (c : Client) (url : String)
    (w w1 w2 w3 : World) (r1 r2 r3 : Int)
    (h1 : coreHTTPRequest env c url w = (some r1, w1))
    (h2 : coreHTTPRequest env c url w1 = (some r2, w2))
    (h3 : coreHTTPRequest env c url w2 = (some r3, w3)) :
    ∃ req, env.NewRequest "GET" url = .ok req ∧
      w3 = ⟨w.coreServer, w.trace ++ [.Do c.inst c.Timeout.ns req,
        .Do c.inst c.Timeout.ns req, .Do c.inst c.Timeout.ns req]⟩ := by
  obtain ⟨q1, hq1, e1, _⟩ := coreHTTPRequest_returns env c url w w1 r1 h1
  obtain ⟨q2, hq2, e2, _⟩ := coreHTTPRequest_returns env c url w1 w2 r2 h2
  obtain ⟨q3, hq3, e3, _⟩ := coreHTTPRequest_returns env c url w2 w3 r3 h3
  rw [hq1] at hq2 hq3
  cases hq2
  cases hq3
  refine ⟨q1, hq1, ?_⟩
  rw [e3, e2, e1]
  simp [World.emit]

/-- C5: with a non-nil instance and three probe results returned by
`coreHTTPRequest`, `measureDelay` has issued exactly three probes whatever their
outcomes, returns `pingDelayTimeout` when all three results are the failure sentinel
and otherwise the truncated quotient of the sum of the successful results by their
count; when probes 1 and 3 succeed and probe 2 fails this is `(r1 + r3) / 2`.  The
three probes do return whenever `http.NewRequest` accepts the url. -/
theorem measureDelay_three_probes (env : Env) (inst : Instance) (timeout : Duration)
    (url : String) (w : World) :
    (∀ (r1 r2 r3 : Int) (w1 w2 w3 : World),
      coreHTTPRequest env ⟨inst, timeout, true⟩ url w = (some r1, w1) →
      coreHTTPRequest env ⟨inst, timeout, true⟩ url w1 = (some r2, w2) →
      coreHTTPRequest env ⟨inst, timeout, true⟩ url w2 = (some r3, w3) →
      measureDelay env (some inst) timeout url w = (some (specDelay [r1, r2, r3]), w3) ∧
      (∃ req, env.NewRequest "GET" url = .ok req ∧ w3.trace = w.trace ++
        [.Do inst timeout.ns req, .Do inst timeout.ns req, .Do inst timeout.ns req]) ∧
      (r1 = pingDelayTimeout → r2 = pingDelayTimeout → r3 = pingDelayTimeout →
        (measureDelay env (some inst) timeout url w).1 = some pingDelayTimeout) ∧
      (¬ (r1 = pingDelayTimeout ∧ r2 = pingDelayTimeout ∧ r3 = pingDelayTimeout) →
        (measureDelay env (some inst) timeout url w).1 =
          some (Int.tdiv ([r1, r2, r3].filter (fun r => r ≠ pingDelayTimeout)).sum
            ([r1, r2, r3].filter (fun r => r ≠ pingDelayTimeout)).length)) ∧
      (r1 ≠ pingDelayTimeout → r2 = pingDelayTimeout → r3 ≠ pingDelayTimeout →
        (measureDelay env (some inst) timeout url w).1 = some (Int.tdiv (r1 + r3) 2))) ∧
    (∀ req, env.NewRequest "GET" url = .ok req →
      ∃ r1 r2 r3 w1 w2 w3,
        coreHTTPRequest env ⟨inst, timeout, true⟩ url w = (some r1, w1) ∧
        coreHTTPRequest env ⟨inst, timeout, true⟩ url w1 = (some r2, w2) ∧
        coreHTTPRequest env ⟨inst, timeout, true⟩ url w2 = (some r3, w3)) := by
  refine ⟨?_, fun req h => three_probes_return env _ url w req h⟩
  intro r1 r2 r3 w1 w2 w3 h1 h2 h3
  have e := measureDelay_eq env inst timeout url w w1 w2 w3 r1 r2 r3 h1 h2 h3
  refine ⟨e, ?_, ?_, ?_, ?_⟩
  · obtain ⟨req, hq, t⟩ := three_probes_trace env _ url w w1 w2 w3 r1 r2 r3 h1 h2 h3
    exact ⟨req, hq, congrArg World.trace t⟩
  · intro e1 e2 e3
    rw [e, e1, e2, e3]
    rfl
  · intro h
    rw [e]
    show some (specDelay [r1, r2, r3]) = _
    unfold specDelay
    have hne : [r1, r2, r3].filter (fun r => r ≠ pingDelayTimeout) ≠ [] := by
      intro hnil
      apply h
      simp only [List.filter_eq_nil_iff, List.mem_cons, List.mem_singleton,
        decide_eq_true_eq, not_not, forall_eq_or_imp, forall_eq] at hnil
      simpa using hnil
    simp only [hne, if_false]
  · intro e1 e2 e3
    rw [e]
    show some (specDelay [r1, r2, r3]) = _
    simp [specDelay, e1, e2, e3]

/-- The function `Ping` when the engine factory fails. -/
theorem Ping_of_construct_error (env : Env) (datDir config : String) (timeout : Int)
    (url : String) (w w2 : World) (err : GoError)
    (h : startXray env config (initEnv datDir "" w) = (.error err, w2)) :
    Ping env datDir config timeout url w = (some pingDelayError, w2) := by
  unfold Ping
  simp only [h]

/-- The function `Ping` when the instance is built and `Start` fails. -/
theorem Ping_of_start_error (env : Env) (datDir config : String) (timeout : Int)
    (url : String) (w w2 : World) (server : Instance) (err : GoError)
    (h : startXray env config (initEnv datDir "" w) = (.ok server, w2))
    (hs : env.Start w2.trace server = some err) :
    Ping env datDir config timeout url w = (some pingDelayError, w2.emit (.Start server)) := by
  unfold Ping
  simp only [h, hs]

/-- The function `Ping` when the instance is built and started. -/
theorem Ping_of_started (env : Env) (datDir config : String) (timeout : Int)
    (url : String) (w w2 : World) (server : Instance)
    (h : startXray env config (initEnv datDir "" w) = (.ok server, w2))
    (hs : env.Start w2.trace server = none) :
    Ping env datDir config timeout url w =
      ((measureDelay env (some server) (Duration.ofInt (Second * wrap64 timeout)) url
          (w2.emit (.Start server))).1,
       (measureDelay env (some server) (Duration.ofInt (Second * wrap64 timeout)) url
          (w2.emit (.Start server))).2.emit (.Close server)) := by
  unfold Ping
  simp only [h, hs]

/-- The delay estimate lies between any bounds of the successful samples. -/
theorem specDelay_between (lo hi : Int) (l : List Int)
    (hne : l.filter (fun r => r ≠ pingDelayTimeout) ≠ [])
    (h : ∀ r ∈ l.filter (fun r => r ≠ pingDelayTimeout), lo ≤ r ∧ r ≤ hi) :
    lo ≤ specDelay l ∧ specDelay l ≤ hi := by
  unfold specDelay
  simp only [hne, if_false]
  exact mean_between lo hi _ hne h

/-- When every successful sample is below 10000, an estimate of at least 10000
is the timeout sentinel. -/
theorem specDelay_sentinel (l : List Int)
    (h : ∀ r ∈ l.filter (fun r => r ≠ pingDelayTimeout), 0 ≤ r ∧ r < 10000)
    (hv : 10000 ≤ specDelay l) : specDelay l = pingDelayTimeout := by
  by_cases hne : l.filter (fun r => r ≠ pingDelayTimeout) = []
  · unfold specDelay
    simp only [hne, if_true]
  · have b := specDelay_between 0 9999 l hne (fun r hr => by have := h r hr; omega)
    omega

/-- The delay estimate lies between any bounds of the error-free samples, also
when some of them are equal to the sentinel value. -/
theorem specDelay_between_elapsed (lo hi : Int) (os : List (Option Int))
    (hne : os.reduceOption ≠ [])
    (h : ∀ r ∈ os.reduceOption, lo ≤ r ∧ r ≤ hi) :
    lo ≤ specDelay (os.map (fun o => o.getD pingDelayTimeout)) ∧
      specDelay (os.map (fun o => o.getD pingDelayTimeout)) ≤ hi := by
  by_cases hok : (os.map (fun o => o.getD pingDelayTimeout)).filter
      (fun r => r ≠ pingDelayTimeout) = []
  · have e : specDelay (os.map (fun o => o.getD pingDelayTimeout)) = pingDelayTimeout := by
      unfold specDelay
      simp only [hok, if_true]
    obtain ⟨x, hx⟩ := List.exists_mem_of_ne_nil _ hne
    have hmem : some x ∈ os := List.reduceOption_mem_iff.mp hx
    have hx2 : x = pingDelayTimeout := by
      by_contra hc
      have : x ∈ (os.map (fun o => o.getD pingDelayTimeout)).filter
          (fun r => r ≠ pingDelayTimeout) := by
        rw [List.mem_filter]
        exact ⟨List.mem_map.mpr ⟨some x, hmem, rfl⟩, by simpa using hc⟩
      rw [hok] at this
      exact List.not_mem_nil _ this
    rw [e, ← hx2]
    exact h x hx
  · refine specDelay_between lo hi _ hok ?_
    intro r hr
    rw [List.mem_filter] at hr
    obtain ⟨o, ho, hor⟩ := List.mem_map.mp hr.1
    have hne2 : r ≠ pingDelayTimeout := by simpa using hr.2
    cases o with
    | none => exact absurd hor.symm hne2
    | some y =>
      have : y = r := hor
      subst this
      exact h y (List.reduceOption_mem_iff.mpr ho)


/-- C9: for three probe results returned by `coreHTTPRequest` of which at least one
succeeded, the value returned by `measureDelay` lies between the smallest and the
largest successful sample (between any two bounds of the successful samples), whether
"successful" is read as a result other than the sentinel value or as a request that
returned no error; so if every successful sample is in [0, 10000) the result is in
[0, 10000) and is neither sentinel, and any result of `measureDelay` or `Ping` that is
at least 10000, when the successful samples of that run are in [0, 10000), is one of
the two sentinels. -/
theorem measureDelay_within_samples (env : Env) (inst : Instance) (timeout : Duration)
    (url : String) (w : World) :
    (∀ (r1 r2 r3 : Int) (w1 w2 w3 : World),
      coreHTTPRequest env ⟨inst, timeout, true⟩ url w = (some r1, w1) →
      coreHTTPRequest env ⟨inst, timeout, true⟩ url w1 = (some r2, w2) →
      coreHTTPRequest env ⟨inst, timeout, true⟩ url w2 = (some r3, w3) →
      ([r1, r2, r3].filter (fun r => r ≠ pingDelayTimeout) ≠ [] →
        ∃ v, (measureDelay env (some inst) timeout url w).1 = some v ∧
          (∀ lo hi : Int,
            (∀ r ∈ [r1, r2, r3].filter (fun r => r ≠ pingDelayTimeout), lo ≤ r ∧ r ≤ hi) →
              lo ≤ v ∧ v ≤ hi) ∧
          ((∀ r ∈ [r1, r2, r3].filter (fun r => r ≠ pingDelayTimeout), 0 ≤ r ∧ r < 10000) →
            0 ≤ v ∧ v < 10000 ∧ v ≠ pingDelayError ∧ v ≠ pingDelayTimeout)) ∧
      ([elapsedOf env ⟨inst, timeout, true⟩ url w, elapsedOf env ⟨inst, timeout, true⟩ url w1,
          elapsedOf env ⟨inst, timeout, true⟩ url w2].reduceOption ≠ [] →
        ∃ v, (measureDelay env (some inst) timeout url w).1 = some v ∧
          ∀ lo hi : Int,
            (∀ r ∈ [elapsedOf env ⟨inst, timeout, true⟩ url w,
              elapsedOf env ⟨inst, timeout, true⟩ url w1,
              elapsedOf env ⟨inst, timeout, true⟩ url w2].reduceOption, lo ≤ r ∧ r ≤ hi) →
              lo ≤ v ∧ v ≤ hi) ∧
      ((∀ r ∈ [r1, r2, r3].filter (fun r => r ≠ pingDelayTimeout), 0 ≤ r ∧ r < 10000) →
        ∀ v, (measureDelay env (some inst) timeout url w).1 = some v → 10000 ≤ v →
          v = pingDelayTimeout)) ∧
    (measureDelay env none timeout url w).1 = some pingDelayError ∧
    (∀ (datDir config : String) (t : Int) (v : Int),
      (Ping env datDir config t url w).1 = some v → 10000 ≤ v →
      (∀ (server : Instance) (w2 : World) (r1 r2 r3 : Int) (w3 w4 w5 : World),
        startXray env config (initEnv datDir "" w) = (.ok server, w2) →
        env.Start w2.trace server = none →
        coreHTTPRequest env ⟨server, Duration.ofInt (Second * wrap64 t), true⟩ url
          (w2.emit (.Start server)) = (some r1, w3) →
        coreHTTPRequest env ⟨server, Duration.ofInt (Second * wrap64 t), true⟩ url w3 =
          (some r2, w4) →
        coreHTTPRequest env ⟨server, Duration.ofInt (Second * wrap64 t), true⟩ url w4 =
          (some r3, w5) →
        ∀ r ∈ [r1, r2, r3].filter (fun r => r ≠ pingDelayTimeout), 0 ≤ r ∧ r < 10000) →
      v = pingDelayError ∨ v = pingDelayTimeout) ∧
    (∀ req, env.NewRequest "GET" url = .ok req →
      ∃ r1 r2 r3 w1 w2 w3,
        coreHTTPRequest env ⟨inst, timeout, true⟩ url w = (some r1, w1) ∧
        coreHTTPRequest env ⟨inst, timeout, true⟩ url w1 = (some r2, w2) ∧
        coreHTTPRequest env ⟨inst, timeout, true⟩ url w2 = (some r3, w3)) := by
  refine ⟨?_, rfl, ?_, fun req h => three_probes_return env _ url w req h⟩
  · intro r1 r2 r3 w1 w2 w3 h1 h2 h3
    have e := measureDelay_eq env inst timeout url w w1 w2 w3 r1 r2 r3 h1 h2 h3
    refine ⟨?_, ?_, ?_⟩
    · intro hne
      refine ⟨specDelay [r1, r2, r3], by rw [e], ?_, ?_⟩
      · intro lo hi hb
        exact specDelay_between lo hi _ hne hb
      · intro hb
        have b := specDelay_between 0 9999 [r1, r2, r3] hne
          (fun r hr => by have := hb r hr; omega)
        simp only [pingDelayError, pingDelayTimeout]
        omega
    · intro hne
      refine ⟨specDelay [r1, r2, r3], by rw [e], ?_⟩
      intro lo hi hb
      obtain ⟨_, _, _, q1, _⟩ := coreHTTPRequest_returns env _ url w w1 r1 h1
      obtain ⟨_, _, _, q2, _⟩ := coreHTTPRequest_returns env _ url w1 w2 r2 h2
      obtain ⟨_, _, _, q3, _⟩ := coreHTTPRequest_returns env _ url w2 w3 r3 h3
      have b := specDelay_between_elapsed lo hi
        [elapsedOf env ⟨inst, timeout, true⟩ url w, elapsedOf env ⟨inst, timeout, true⟩ url w1,
          elapsedOf env ⟨inst, timeout, true⟩ url w2] hne hb
      simp only [List.map_cons, List.map_nil, ← q1, ← q2, ← q3] at b
      exact b
    · intro hb v hv hge
      rw [e] at hv
      simp only [Option.some.injEq] at hv
      rw [← hv] at hge ⊢
      exact specDelay_sentinel _ hb hge
  · intro datDir config t v hv hge hall
    rcases hx : startXray env config (initEnv datDir "" w) with ⟨res, w2⟩
    cases res with
    | error err =>
      left
      rw [Ping_of_construct_error env datDir config t url w w2 err hx] at hv
      simp only [Option.some.injEq] at hv
      exact hv.symm
    | ok server =>
      cases hs : env.Start w2.trace server with
      | some err =>
        left
        rw [Ping_of_start_error env datDir config t url w w2 server err hx hs] at hv
        simp only [Option.some.injEq] at hv
        exact hv.symm
      | none =>
        right
        rw [Ping_of_started env datDir config t url w w2 server hx hs] at hv
        cases hq : env.NewRequest "GET" url with
        | error e =>
          rw [measureDelay_of_reject env server _ url _ e hq] at hv
          simp at hv
        | ok req =>
          obtain ⟨r1, r2, r3, w3, w4, w5, h1, h2, h3⟩ :=
            three_probes_return env
              ⟨server, Duration.ofInt (Second * wrap64 t), true⟩ url
              (w2.emit (.Start server)) req hq
          rw [measureDelay_eq env server _ url _ w3 w4 w5 r1 r2 r3 h1 h2 h3] at hv
          simp only [Option.some.injEq] at hv
          rw [← hv] at hge ⊢
          exact specDelay_sentinel _ (hall server w2 r1 r2 r3 w3 w4 w5 hx hs h1 h2 h3) hge

/-- C10: `measureDelay` tells a failed probe only by the value 11000: an error-free
request that took exactly 11000 ms yields that value, leaves the sum, the count and
the validity flag untouched as a failed one does, and three such error-free probes
make `measureDelay` return the timeout sentinel although no request errored. -/
theorem measureDelay_exact_timeout_excluded :
    (∀ (a : Acc) (r : Int), a.step r = if r = pingDelayTimeout then a
        else ⟨wrap64 (a.delaySum + r), wrap64 (a.count + 1), true⟩) ∧
    (∀ (env : Env) (c : Client) (url : String) (w : World) (req : Request) (d : Duration)
        (a : Acc),
      env.NewRequest "GET" url = .ok req →
      env.Do w.trace c.inst c.Timeout.ns req = .ok d → d.Milliseconds = 11000 →
        (coreHTTPRequest env c url w).1 = some pingDelayTimeout ∧
          ∀ r, (coreHTTPRequest env c url w).1 = some r → a.step r = a) ∧
    (∀ (env : Env) (inst : Instance) (timeout : Duration) (url : String) (w : World)
        (req : Request),
      env.NewRequest "GET" url = .ok req →
      (∀ t, ∃ d, env.Do t inst timeout.ns req = .ok d ∧ d.Milliseconds = 11000) →
        (measureDelay env (some inst) timeout url w).1 = some pingDelayTimeout) ∧
    (∃ env : Env, (∀ m u, ∃ req, env.NewRequest m u = .ok req) ∧
      (∀ t i o q, ∃ d, env.Do t i o q = .ok d) ∧
      ∀ (inst : Instance) (timeout : Duration) (url : String) (w : World),
        (measureDelay env (some inst) timeout url w).1 = some pingDelayTimeout) := by
  have probe : ∀ (env : Env) (c : Client) (url : String) (w : World) (req : Request)
      (d : Duration), env.NewRequest "GET" url = .ok req →
      env.Do w.trace c.inst c.Timeout.ns req = .ok d → d.Milliseconds = 11000 →
      coreHTTPRequest env c url w =
        (some pingDelayTimeout, w.emit (.Do c.inst c.Timeout.ns req)) := by
    intro env c url w req d hq hd hm
    simp only [coreHTTPRequest, hq, hd, hm, pingDelayTimeout]
  have key : ∀ (env : Env) (inst : Instance) (timeout : Duration) (url : String) (w : World)
      (req : Request), env.NewRequest "GET" url = .ok req →
      (∀ t, ∃ d, env.Do t inst timeout.ns req = .ok d ∧ d.Milliseconds = 11000) →
        (measureDelay env (some inst) timeout url w).1 = some pingDelayTimeout := by
    intro env inst timeout url w req hq h
    have r : ∀ w0 : World, coreHTTPRequest env ⟨inst, timeout, true⟩ url w0 =
        (some pingDelayTimeout, w0.emit (.Do inst timeout.ns req)) := by
      intro w0
      obtain ⟨d, hd, hm⟩ := h w0.trace
      exact probe env ⟨inst, timeout, true⟩ url w0 req d hq hd hm
    rw [measureDelay_eq env inst timeout url w _ _ _ _ _ _ (r _) (r _) (r _)]
    rfl
  refine ⟨?_, ?_, key, ?_⟩
  · intro a r
    unfold Acc.step
    by_cases h : r = pingDelayTimeout <;> simp [h]
  · intro env c url w req d a hq hd hm
    have r := probe env c url w req d hq hd hm
    rw [r]
    refine ⟨rfl, ?_⟩
    intro x hx
    simp only [Option.some.injEq] at hx
    rw [← hx]
    simp [Acc.step]
  · refine ⟨⟨fun _ _ _ => .ok 0, fun _ _ => .ok 0, fun _ _ => none, fun _ _ => none,
      fun m u => .ok ⟨m, u⟩,
      fun _ _ _ _ => .ok ⟨11000000000, by norm_num, by norm_num⟩⟩, ?_, ?_, ?_⟩
    · intro m u
      exact ⟨_, rfl⟩
    · intro t i o q
      exact ⟨_, rfl⟩
    · intro inst timeout url w
      exact key _ inst timeout url w ⟨"GET", url⟩ rfl (fun t => ⟨_, rfl, by decide⟩)

/-! ## Lifecycle manager -/

/-- The function `initEnv` only adds `Setenv` calls and does not touch `coreServer`. -/
theorem initEnv_frame (datDir maxMemory : String) (w : World) :
    (initEnv datDir maxMemory w).coreServer = w.coreServer ∧
      ∃ s, (initEnv datDir maxMemory w).trace = w.trace ++ s ∧ ∀ e ∈ s, e.isSetup = true := by
  unfold initEnv
  by_cases h : maxMemory = ""
  · simp only [h, ne_eq, not_true_eq_false, if_false]
    exact ⟨rfl, _, rfl, by simp [Event.isSetup]⟩
  · simp only [h, ne_eq, not_false_eq_true, if_true]
    refine ⟨rfl, [.Setenv "xray.location.asset" datDir, .Setenv "GOMEMLIMIT" maxMemory], ?_, ?_⟩
    · simp [World.emit]
    · simp [Event.isSetup]

/-- The function `startXray` only adds `LoadConfig` and `New` calls and does not
touch `coreServer`. -/
theorem startXray_frame (env : Env) (configFile : String) (w : World) :
    (startXray env configFile w).2.coreServer = w.coreServer ∧
      ∃ s, (startXray env configFile w).2.trace = w.trace ++ s ∧
        ∀ e ∈ s, e.isSetup = true := by
  unfold startXray
  cases h1 : env.LoadConfig w.trace "json" configFile with
  | error err => exact ⟨rfl, [.LoadConfig "json" configFile], rfl, by simp [Event.isSetup]⟩
  | ok config =>
    simp only
    cases h2 : env.New (w.emit (.LoadConfig "json" configFile)).trace config with
    | error err =>
      exact ⟨rfl, [.LoadConfig "json" configFile, .New config], by simp [World.emit],
        by simp [Event.isSetup]⟩
    | ok server =>
      exact ⟨rfl, [.LoadConfig "json" configFile, .New config], by simp [World.emit],
        by simp [Event.isSetup]⟩

/-- The events added by `initEnv` are `Setenv` calls. -/
theorem initEnv_setenv (datDir maxMemory : String) (w : World) :
    ∀ e ∈ (initEnv datDir maxMemory w).trace.drop w.trace.length, ∃ k v, e = .Setenv k v := by
  unfold initEnv
  by_cases h : maxMemory = "" <;> simp [h, World.emit]

/-- The function `startXray` when `core.LoadConfig` fails: `core.New` is not called. -/
theorem startXray_of_LoadConfig_error (env : Env) (configFile : String) (w : World)
    (err : GoError) (h : env.LoadConfig w.trace "json" configFile = .error err) :
    startXray env configFile w = (.error err, w.emit (.LoadConfig "json" configFile)) := by
  unfold startXray
  rw [h]

/-- The function `startXray` when the configuration loads and `core.New` fails. -/
theorem startXray_of_New_error (env : Env) (configFile : String) (w : World)
    (cfg : Config) (err : GoError)
    (h1 : env.LoadConfig w.trace "json" configFile = .ok cfg)
    (h2 : env.New (w.emit (.LoadConfig "json" configFile)).trace cfg = .error err) :
    startXray env configFile w =
      (.error err, (w.emit (.LoadConfig "json" configFile)).emit (.New cfg)) := by
  unfold startXray
  rw [h1]
  simp only [h2]

/-- The function `startXray` when the configuration loads and the instance is built. -/
theorem startXray_of_New_ok (env : Env) (configFile : String) (w : World)
    (cfg : Config) (server : Instance)
    (h1 : env.LoadConfig w.trace "json" configFile = .ok cfg)
    (h2 : env.New (w.emit (.LoadConfig "json" configFile)).trace cfg = .ok server) :
    startXray env configFile w =
      (.ok server, (w.emit (.LoadConfig "json" configFile)).emit (.New cfg)) := by
  unfold startXray
  rw [h1]
  simp only [h2]

/-- Through `initEnv` and `startXray` together: `coreServer` is kept and only
setup calls are added. -/
theorem construct_frame (env : Env) (datDir config maxMemory : String) (w : World) :
    (startXray env config (initEnv datDir maxMemory w)).2.coreServer = w.coreServer ∧
      ∃ s, (startXray env config (initEnv datDir maxMemory w)).2.trace = w.trace ++ s ∧
        ∀ e ∈ s, e.isSetup = true := by
  obtain ⟨a1, s1, t1, q1⟩ := initEnv_frame datDir maxMemory w
  obtain ⟨a2, s2, t2, q2⟩ := startXray_frame env config (initEnv datDir maxMemory w)
  refine ⟨a2.trans a1, s1 ++ s2, ?_, ?_⟩
  · rw [t2, t1, List.append_assoc]
  · intro e he
    rcases List.mem_append.mp he with h | h
    · exact q1 e h
    · exact q2 e h

/-- The function `RunXray` when the engine factory fails. -/
theorem RunXray_of_construct_error (env : Env) (datDir config maxMemory : String)
    (w w2 : World) (err : GoError)
    (h : startXray env config (initEnv datDir maxMemory w) = (.error err, w2)) :
    RunXray env datDir config maxMemory w = (err.msg, w2) := by
  unfold RunXray
  simp only [h]

/-- The function `RunXray` when the instance is built and `Start` fails. -/
theorem RunXray_of_start_error (env : Env) (datDir config maxMemory : String)
    (w w2 : World) (server : Instance) (err : GoError)
    (h : startXray env config (initEnv datDir maxMemory w) = (.ok server, w2))
    (hs : env.Start w2.trace server = some err) :
    RunXray env datDir config maxMemory w = (err.msg, w2.emit (.Start server)) := by
  unfold RunXray
  simp only [h, hs]

/-- The function `RunXray` when the instance is built and started. -/
theorem RunXray_of_started (env : Env) (datDir config maxMemory : String)
    (w w2 : World) (server : Instance)
    (h : startXray env config (initEnv datDir maxMemory w) = (.ok server, w2))
    (hs : env.Start w2.trace server = none) :
    RunXray env datDir config maxMemory w = ("", (w2.emit (.Start server)).emit .GC) := by
  unfold RunXray
  simp only [h, hs]

/-- The function `RunXray` never assigns the package-level `coreServer`. -/
theorem RunXray_coreServer (env : Env) (datDir config maxMemory : String) (w : World) :
    (RunXray env datDir config maxMemory w).2.coreServer = w.coreServer := by
  have f := (construct_frame env datDir config maxMemory w).1
  rcases hx : startXray env config (initEnv datDir maxMemory w) with ⟨res, w2⟩
  rw [hx] at f
  cases res with
  | error err =>
    rw [RunXray_of_construct_error env datDir config maxMemory w w2 err hx]
    exact f
  | ok server =>
    cases hs : env.Start w2.trace server with
    | some err =>
      rw [RunXray_of_start_error env datDir config maxMemory w w2 server err hx hs]
      exact f
    | none =>
      rw [RunXray_of_started env datDir config maxMemory w w2 server hx hs]
      exact f

/-- C1 (failing input): from the initial state, with an engine that loads, builds
and starts instance 7 without error, `RunXray` returns the empty string and has
started instance 7, yet the package-level `coreServer` is still nil afterwards, and
the following `StopXray` returns the empty string without closing anything. -/
theorem RunXray_success_leaves_coreServer_nil :
    (RunXray envOK "assets" "config.json" "" World.init).1 = "" ∧
    Event.Start 7 ∈ (RunXray envOK "assets" "config.json" "" World.init).2.trace ∧
    (RunXray envOK "assets" "config.json" "" World.init).2.coreServer = none ∧
    StopXray envOK (RunXray envOK "assets" "config.json" "" World.init).2 =
      ("", (RunXray envOK "assets" "config.json" "" World.init).2) ∧
    Event.Close 7 ∉
      (StopXray envOK (RunXray envOK "assets" "config.json" "" World.init).2).2.trace := by
  decide

/-- C2: when the shared slot holds an instance, `StopXray` calls `Close` on that
instance exactly once, leaves the slot empty whether `Close` failed or not, and
returns the message of the `Close` error, or the empty string when there is none. -/
theorem StopXray_closes_once (env : Env) (w : World) (inst : Instance)
    (h : w.coreServer = some inst) :
    (StopXray env w).2.trace = w.trace ++ [.Close inst] ∧
    (StopXray env w).2.coreServer = none ∧
    (∀ e, env.Close w.trace inst = some e → (StopXray env w).1 = e.msg) ∧
    (env.Close w.trace inst = none → (StopXray env w).1 = "") := by
  unfold StopXray
  rw [h]
  cases hc : env.Close w.trace inst with
  | none => simp [World.emit, hc]
  | some e => simp [World.emit, hc]

/-- C3: on an empty slot `StopXray` returns the empty string and changes nothing
(no call is made, the slot stays empty); hence from every state a second `StopXray`
right after a first one returns the empty string and makes no `Close` call. -/
theorem StopXray_idempotent (env : Env) (w : World) :
    (w.coreServer = none → StopXray env w = ("", w)) ∧
    (StopXray env w).2.coreServer = none ∧
    StopXray env (StopXray env w).2 = ("", (StopXray env w).2) := by
  have empty : ∀ w0 : World, w0.coreServer = none → StopXray env w0 = ("", w0) := by
    intro w0 h0
    unfold StopXray
    rw [h0]
  have cleared : (StopXray env w).2.coreServer = none := by
    unfold StopXray
    cases hw : w.coreServer with
    | none => simpa using hw
    | some inst =>
      simp only
      cases env.Close w.trace inst <;> rfl
  exact ⟨empty w, cleared, empty _ cleared⟩

/-- C4 (counterexample): with an engine whose `Start` fails with an error of empty
text, `RunXray` has built and tried to start instance 7, the start failed, and the
value returned is the empty string. -/
theorem RunXray_empty_error_text :
    envEmptyError.Start
      [.Setenv "xray.location.asset" "assets", .LoadConfig "json" "config.json", .New 0] 7 =
      some ⟨""⟩ ∧
    (RunXray envEmptyError "assets" "config.json" "" World.init).2.trace =
      [.Setenv "xray.location.asset" "assets", .LoadConfig "json" "config.json", .New 0,
        .Start 7] ∧
    (RunXray envEmptyError "assets" "config.json" "" World.init).1 = "" := by
  decide

/-- C4 (amended): when `core.LoadConfig` fails, `RunXray` returns that error's text and
calls neither `core.New` nor `Start`; when `core.New` fails it returns that error's
text and does not call `Start`; when `Start` fails it returns that error's text.  The
returned text is the empty string exactly when the error's own text is empty, and on
every path the shared slot is left as it was. -/
theorem RunXray_failure (env : Env) (datDir config maxMemory : String) (w : World) :
    let w1 := initEnv datDir maxMemory w
    let w2 := w1.emit (.LoadConfig "json" config)
    (∀ err, env.LoadConfig w1.trace "json" config = .error err →
      RunXray env datDir config maxMemory w = (err.msg, w2) ∧
      ((RunXray env datDir config maxMemory w).1 = "" ↔ err.msg = "") ∧
      ∃ s, (RunXray env datDir config maxMemory w).2.trace = w.trace ++ s ∧
        ∀ e ∈ s, e.isStart = false ∧ ∀ cfg, e ≠ .New cfg) ∧
    (∀ cfg err, env.LoadConfig w1.trace "json" config = .ok cfg →
      env.New w2.trace cfg = .error err →
      RunXray env datDir config maxMemory w = (err.msg, w2.emit (.New cfg)) ∧
      ((RunXray env datDir config maxMemory w).1 = "" ↔ err.msg = "") ∧
      ∃ s, (RunXray env datDir config maxMemory w).2.trace = w.trace ++ s ∧
        ∀ e ∈ s, e.isStart = false) ∧
    (∀ cfg server err, env.LoadConfig w1.trace "json" config = .ok cfg →
      env.New w2.trace cfg = .ok server →
      env.Start (w2.emit (.New cfg)).trace server = some err →
      RunXray env datDir config maxMemory w =
        (err.msg, (w2.emit (.New cfg)).emit (.Start server)) ∧
      ((RunXray env datDir config maxMemory w).1 = "" ↔ err.msg = "")) ∧
    (RunXray env datDir config maxMemory w).2.coreServer = w.coreServer := by
  intro w1 w2
  obtain ⟨_, s1, t1, q1⟩ := initEnv_frame datDir maxMemory w
  have nostart : ∀ e ∈ s1, e.isStart = false := by
    intro ev hev
    have := q1 ev hev
    cases ev <;> simp_all [Event.isSetup, Event.isStart]
  have nonew : ∀ e ∈ s1, ∀ cfg, e ≠ Event.New cfg := by
    intro ev hev cfg hc
    have hs := initEnv_setenv datDir maxMemory w ev (by
      show ev ∈ (initEnv datDir maxMemory w).trace.drop w.trace.length
      rw [t1]
      simpa using hev)
    rw [hc] at hs
    simp at hs
  refine ⟨?_, ?_, ?_, RunXray_coreServer env datDir config maxMemory w⟩
  · intro err h
    have e := RunXray_of_construct_error env datDir config maxMemory w w2 err
      (startXray_of_LoadConfig_error env config w1 err h)
    refine ⟨e, by rw [e], s1 ++ [.LoadConfig "json" config], ?_, ?_⟩
    · rw [e]
      show w1.trace ++ [Event.LoadConfig "json" config] = _
      rw [t1, List.append_assoc]
    · intro ev hev
      rcases List.mem_append.mp hev with hm | hm
      · exact ⟨nostart ev hm, nonew ev hm⟩
      · simp only [List.mem_singleton] at hm
        subst hm
        exact ⟨rfl, by simp⟩
  · intro cfg err h1 h2
    have e := RunXray_of_construct_error env datDir config maxMemory w (w2.emit (.New cfg)) err
      (startXray_of_New_error env config w1 cfg err h1 h2)
    refine ⟨e, by rw [e], s1 ++ [.LoadConfig "json" config, .New cfg], ?_, ?_⟩
    · rw [e]
      show (w1.trace ++ [Event.LoadConfig "json" config]) ++ [Event.New cfg] = _
      rw [t1]
      simp
    · intro ev hev
      rcases List.mem_append.mp hev with hm | hm
      · exact nostart ev hm
      · simp only [List.mem_cons, List.mem_singleton, List.not_mem_nil, or_false] at hm
        rcases hm with rfl | rfl <;> rfl
  · intro cfg server err h1 h2 h3
    have e := RunXray_of_start_error env datDir config maxMemory w (w2.emit (.New cfg)) server
      err (startXray_of_New_ok env config w1 cfg server h1 h2) h3
    exact ⟨e, by rw [e]⟩

/-! ## One-shot probing -/

theorem initEnv_withServer (datDir maxMemory : String) (w : World) (x : Option Instance) :
    initEnv datDir maxMemory (w.withServer x) = (initEnv datDir maxMemory w).withServer x := by
  unfold initEnv
  split_ifs <;> rfl

theorem startXray_withServer (env : Env) (configFile : String) (w : World)
    (x : Option Instance) :
    startXray env configFile (w.withServer x) =
      ((startXray env configFile w).1, (startXray env configFile w).2.withServer x) := by
  unfold startXray
  simp only [World.withServer, World.emit]
  cases env.LoadConfig w.trace "json" configFile with
  | error err => rfl
  | ok config =>
    simp only
    cases env.New (w.trace ++ [.LoadConfig "json" configFile]) config <;> rfl

theorem coreHTTPRequest_withServer (env : Env) (c : Client) (url : String) (w : World)
    (x : Option Instance) :
    coreHTTPRequest env c url (w.withServer x) =
      ((coreHTTPRequest env c url w).1, (coreHTTPRequest env c url w).2.withServer x) := by
  unfold coreHTTPRequest
  simp only [World.withServer, World.emit]
  cases env.NewRequest "GET" url with
  | error e => rfl
  | ok req =>
    simp only
    cases env.Do w.trace c.inst c.Timeout.ns req <;> rfl

theorem measureLoop_withServer (env : Env) (c : Client) (url : String)
    (x : Option Instance) : ∀ (n : Nat) (a : Acc) (w : World),
    measureLoop env c url n a (w.withServer x) =
      ((measureLoop env c url n a w).1, (measureLoop env c url n a w).2.withServer x) := by
  intro n
  induction n with
  | zero => intro a w; rfl
  | succ n ih =>
    intro a w
    simp only [measureLoop, coreHTTPRequest_withServer]
    rcases h : coreHTTPRequest env c url w with ⟨r, w1⟩
    cases r with
    | none => rfl
    | some delay => exact ih _ _

theorem measureDelay_withServer (env : Env) (inst : Instance) (timeout : Duration)
    (url : String) (w : World) (x : Option Instance) :
    measureDelay env (some inst) timeout url (w.withServer x) =
      ((measureDelay env (some inst) timeout url w).1,
        (measureDelay env (some inst) timeout url w).2.withServer x) := by
  unfold measureDelay coreHTTPClient
  simp only [measureLoop_withServer]
  rcases h : measureLoop env ⟨inst, timeout, true⟩ url 3 ⟨0, 0, false⟩ w with ⟨a, w1⟩
  cases a with
  | none => rfl
  | some acc =>
    simp only
    split <;> rfl

/-- The function `Ping` neither reads nor writes the shared slot: with another
content of the slot it returns the same value, makes the same calls and leaves
that content in place. -/
theorem Ping_withServer (env : Env) (datDir config : String) (timeout : Int)
    (url : String) (w : World) (x : Option Instance) :
    Ping env datDir config timeout url (w.withServer x) =
      ((Ping env datDir config timeout url w).1,
        (Ping env datDir config timeout url w).2.withServer x) := by
  have hx' : startXray env config (initEnv datDir "" (w.withServer x)) =
      ((startXray env config (initEnv datDir "" w)).1,
        (startXray env config (initEnv datDir "" w)).2.withServer x) := by
    rw [initEnv_withServer, startXray_withServer]
  rcases hx : startXray env config (initEnv datDir "" w) with ⟨res, w2⟩
  rw [hx] at hx'
  cases res with
  | error err =>
    rw [Ping_of_construct_error env datDir config timeout url w w2 err hx,
      Ping_of_construct_error env datDir config timeout url _ _ err hx']
  | ok server =>
    cases hs : env.Start w2.trace server with
    | some err =>
      rw [Ping_of_start_error env datDir config timeout url w w2 server err hx hs,
        Ping_of_start_error env datDir config timeout url _ _ server err hx' hs]
      rfl
    | none =>
      rw [Ping_of_started env datDir config timeout url w w2 server hx hs,
        Ping_of_started env datDir config timeout url _ _ server hx' hs]
      have e : (w2.withServer x).emit (.Start server) =
          (w2.emit (.Start server)).withServer x := rfl
      simp only [e, measureDelay_withServer]
      rfl

/-- The function `Ping` leaves the shared slot as it found it. -/
theorem Ping_coreServer (env : Env) (datDir config : String) (timeout : Int)
    (url : String) (w : World) :
    (Ping env datDir config timeout url w).2.coreServer = w.coreServer := by
  have h := Ping_withServer env datDir config timeout url w w.coreServer
  have e : w.withServer w.coreServer = w := rfl
  rw [e] at h
  have h2 := congrArg (fun r => r.2.coreServer) h
  exact h2.trans rfl

/-- C6: when the engine factory fails, or the instance is built and `Start` fails,
`Ping` returns `pingDelayError` (10000) and stops right there: the state it leaves
is the one after the failed call, no probe request is in the trace it added (so
`measureDelay` did not run), and `pingDelayError` differs from `pingDelayTimeout`. -/
theorem Ping_hard_failure (env : Env) (datDir config : String) (timeout : Int)
    (url : String) (w : World) :
    (∀ err w2, startXray env config (initEnv datDir "" w) = (.error err, w2) →
      Ping env datDir config timeout url w = (some pingDelayError, w2) ∧
      ∃ s, (Ping env datDir config timeout url w).2.trace = w.trace ++ s ∧
        ∀ e ∈ s, e.isDo = false) ∧
    (∀ server w2 err, startXray env config (initEnv datDir "" w) = (.ok server, w2) →
      env.Start w2.trace server = some err →
      Ping env datDir config timeout url w = (some pingDelayError, w2.emit (.Start server)) ∧
      ∃ s, (Ping env datDir config timeout url w).2.trace = w.trace ++ s ∧
        ∀ e ∈ s, e.isDo = false) ∧
    pingDelayError = 10000 ∧ pingDelayTimeout = 11000 ∧ pingDelayError ≠ pingDelayTimeout := by
  obtain ⟨_, s, hs, hq⟩ := construct_frame env datDir config "" w
  have quiet : ∀ e ∈ s, e.isDo = false := by
    intro ev hev
    have := hq ev hev
    cases ev <;> simp_all [Event.isSetup, Event.isDo]
  refine ⟨?_, ?_, rfl, rfl, by decide⟩
  · intro err w2 hx
    have e := Ping_of_construct_error env datDir config timeout url w w2 err hx
    rw [hx] at hs
    refine ⟨e, s, ?_, quiet⟩
    rw [e]
    exact hs
  · intro server w2 err hx hst
    have e := Ping_of_start_error env datDir config timeout url w w2 server err hx hst
    rw [hx] at hs
    refine ⟨e, s ++ [.Start server], ?_, ?_⟩
    · rw [e]
      show w2.trace ++ [Event.Start server] = _
      rw [hs, List.append_assoc]
    · intro ev hev
      rcases List.mem_append.mp hev with h | h
      · exact quiet ev h
      · simp only [List.mem_singleton] at h
        rw [h]
        rfl

/-- C7 (counterexample): with an engine that builds instance 7 and whose `Start`
fails, `Ping` has constructed the instance and tried to start it, returns
`pingDelayError`, and the trace it leaves holds no `Close` of instance 7. -/
theorem Ping_start_failure_never_closes :
    (Ping envStartFails "assets" "config.json" 5 "http://cp.cloudflare.com/" World.init).1 =
      some pingDelayError ∧
    (Ping envStartFails "assets" "config.json" 5 "http://cp.cloudflare.com/" World.init).2.trace =
      [.Setenv "xray.location.asset" "assets", .LoadConfig "json" "config.json", .New 0,
        .Start 7] ∧
    ((Ping envStartFails "assets" "config.json" 5 "http://cp.cloudflare.com/"
      World.init).2.trace.count (.Close 7)) = 0 := by
  decide

/-- C7 (amended): when the instance is built and `Start` succeeds, `Ping` calls
`Close` on that instance exactly once, as its last call: after the three probes when
the measurement returns a value, which `Ping` then returns, and also when the first
probe panics at a url that `http.NewRequest` rejects; and on every path `Ping` neither
reads nor writes the shared slot. -/
theorem Ping_closes_once_when_started (env : Env) (datDir config : String) (timeout : Int)
    (url : String) (w : World) :
    (∀ server w2, startXray env config (initEnv datDir "" w) = (.ok server, w2) →
      env.Start w2.trace server = none →
      ∃ s0, w2.trace = w.trace ++ s0 ∧ (∀ e ∈ s0, e.isSetup = true) ∧
        (∀ req, env.NewRequest "GET" url = .ok req →
          (∃ v, (measureDelay env (some server) (Duration.ofInt (Second * wrap64 timeout)) url
              (w2.emit (.Start server))).1 = some v ∧
            (Ping env datDir config timeout url w).1 = some v) ∧
          (Ping env datDir config timeout url w).2.trace =
            w.trace ++ (s0 ++ [.Start server,
              .Do server (Duration.ofInt (Second * wrap64 timeout)).ns req,
              .Do server (Duration.ofInt (Second * wrap64 timeout)).ns req,
              .Do server (Duration.ofInt (Second * wrap64 timeout)).ns req,
              .Close server]) ∧
          List.count (Event.Close server) (s0 ++ [Event.Start server,
              Event.Do server (Duration.ofInt (Second * wrap64 timeout)).ns req,
              Event.Do server (Duration.ofInt (Second * wrap64 timeout)).ns req,
              Event.Do server (Duration.ofInt (Second * wrap64 timeout)).ns req,
              Event.Close server]) = 1) ∧
        (∀ e, env.NewRequest "GET" url = .error e →
          (Ping env datDir config timeout url w).1 = none ∧
          (Ping env datDir config timeout url w).2.trace =
            w.trace ++ (s0 ++ [.Start server, .Close server]) ∧
          List.count (Event.Close server)
            (s0 ++ [Event.Start server, Event.Close server]) = 1)) ∧
    (Ping env datDir config timeout url w).2.coreServer = w.coreServer ∧
    (∀ x, Ping env datDir config timeout url (w.withServer x) =
      ((Ping env datDir config timeout url w).1,
        (Ping env datDir config timeout url w).2.withServer x)) := by
  refine ⟨?_, Ping_coreServer env datDir config timeout url w,
    Ping_withServer env datDir config timeout url w⟩
  intro server w2 hx hst
  obtain ⟨_, s, hs, hq⟩ := construct_frame env datDir config "" w
  rw [hx] at hs
  have hs2 : w2.trace = w.trace ++ s := hs
  have z : s.count (.Close server) = 0 := by
    rw [List.count_eq_zero]
    intro hmem
    have := hq _ hmem
    simp [Event.isSetup] at this
  have hp := Ping_of_started env datDir config timeout url w w2 server hx hst
  refine ⟨s, hs2, hq, ?_, ?_⟩
  · intro req hreq
    obtain ⟨r1, r2, r3, w3, w4, w5, h1, h2, h3⟩ :=
      three_probes_return env ⟨server, Duration.ofInt (Second * wrap64 timeout), true⟩ url
        (w2.emit (.Start server)) req hreq
    have e := measureDelay_eq env server _ url _ w3 w4 w5 r1 r2 r3 h1 h2 h3
    obtain ⟨q, hq2, t⟩ := three_probes_trace env _ url _ w3 w4 w5 r1 r2 r3 h1 h2 h3
    rw [hreq] at hq2
    cases hq2
    refine ⟨⟨specDelay [r1, r2, r3], by rw [e], by rw [hp, e]⟩, ?_, ?_⟩
    · rw [hp, e, t]
      simp [World.emit, hs2]
    · rw [List.count_append, z]
      simp [List.count_cons]
  · intro e he
    have m := measureDelay_of_reject env server (Duration.ofInt (Second * wrap64 timeout)) url
      (w2.emit (.Start server)) e he
    refine ⟨by rw [hp, m], ?_, ?_⟩
    · rw [hp, m]
      simp [World.emit, hs2]
    · rw [List.count_append, z]
      simp [List.count_cons]

/-! ## Free-port discovery -/

theorem digitChar_mem (d : Nat) (h : d < 10) : Nat.digitChar d ∈ digitChars := by
  interval_cases d <;> decide

theorem toDigitsCore_mem (fuel : Nat) : ∀ (n : Nat) (ds : List Char),
    (∀ c ∈ ds, c ∈ digitChars) → ∀ c ∈ Nat.toDigitsCore 10 fuel n ds, c ∈ digitChars := by
  induction fuel with
  | zero => intro n ds h c hc; exact h c hc
  | succ f ih =>
    intro n ds h c hc
    have hd : ∀ x ∈ Nat.digitChar (n % 10) :: ds, x ∈ digitChars := by
      intro x hx
      rcases List.mem_cons.mp hx with rfl | hx
      · exact digitChar_mem _ (Nat.mod_lt _ (by norm_num))
      · exact h x hx
    unfold Nat.toDigitsCore at hc
    simp only at hc
    split at hc
    · exact hd c hc
    · exact ih _ _ hd c hc

theorem toDigitsCore_ne_nil (fuel : Nat) : ∀ (n : Nat) (ds : List Char),
    ds ≠ [] ∨ fuel ≠ 0 → Nat.toDigitsCore 10 fuel n ds ≠ [] := by
  induction fuel with
  | zero =>
    intro n ds h
    rcases h with h | h
    · exact h
    · exact absurd rfl h
  | succ f ih =>
    intro n ds _
    unfold Nat.toDigitsCore
    simp only
    split
    · exact List.cons_ne_nil _ _
    · exact ih _ _ (Or.inl (List.cons_ne_nil _ _))

/-- A rendered integer is a word: non-empty, digits and at most a minus sign. -/
theorem itoa_word (i : Int) : IsWord (itoa i) := by
  have nat : ∀ n : Nat, Nat.toDigits 10 n ≠ [] ∧ ∀ c ∈ Nat.toDigits 10 n, c ∈ digitChars :=
    fun n => ⟨toDigitsCore_ne_nil _ _ _ (Or.inr (Nat.succ_ne_zero n)),
      toDigitsCore_mem _ _ _ (by simp)⟩
  unfold itoa IsWord
  split
  · refine ⟨List.cons_ne_nil _ _, ?_⟩
    intro c hc
    rcases List.mem_cons.mp hc with rfl | hc
    · exact List.mem_cons_self _ _
    · exact List.mem_cons_of_mem _ ((nat _).2 c hc)
  · exact ⟨(nat _).1, fun c hc => List.mem_cons_of_mem _ ((nat _).2 c hc)⟩

/-- Characters of a word are no white space, no bracket and no colon. -/
theorem wordChar_plain : ∀ c ∈ '-' :: digitChars,
    isSpace c = false ∧ c ≠ '[' ∧ c ≠ ']' ∧ c ≠ ':' := by
  decide

theorem FieldsAux_append (w : List Char) (hw : ∀ c ∈ w, isSpace c = false) :
    ∀ (s cur : List Char), FieldsAux (w ++ s) cur = FieldsAux s (cur ++ w) := by
  induction w with
  | nil => intro s cur; simp
  | cons a t ih =>
    intro s cur
    have ha : isSpace a = false := hw a (List.mem_cons_self _ _)
    have ht : ∀ c ∈ t, isSpace c = false := fun c hc => hw c (List.mem_cons_of_mem _ hc)
    rw [List.cons_append, FieldsAux]
    simp only [ha, Bool.false_eq_true, if_false]
    rw [ih ht]
    simp

/-- The fields of space-separated words followed by the closing bracket. -/
theorem FieldsAux_words (ws : List (List Char)) : ∀ (w cur : List Char),
    (∀ x ∈ w :: ws, IsWord x) → cur ++ w ≠ [] → (∀ c ∈ cur, isSpace c = false) →
    FieldsAux (Join (w :: ws) [' '] ++ [']']) cur = closeLast ((cur ++ w) :: ws) := by
  induction ws with
  | nil =>
    intro w cur hw hne _
    have h1 : ∀ c ∈ w ++ [']'], isSpace c = false := by
      intro c hc
      rcases List.mem_append.mp hc with h | h
      · exact (wordChar_plain c ((hw w (List.mem_cons_self _ _)).2 c h)).1
      · simp only [List.mem_singleton] at h
        rw [h]
        decide
    have h2 := FieldsAux_append (w ++ [']']) h1 [] cur
    simp only [List.append_nil] at h2
    simp only [Join, closeLast]
    rw [h2, FieldsAux]
    simp
  | cons w2 rest ih =>
    intro w cur hw hne _
    have h1 : ∀ c ∈ w, isSpace c = false := fun c hc =>
      (wordChar_plain c ((hw w (List.mem_cons_self _ _)).2 c hc)).1
    have hrest : ∀ x ∈ w2 :: rest, IsWord x := fun x hx => hw x (List.mem_cons_of_mem _ hx)
    have hw2 : ([] : List Char) ++ w2 ≠ [] := by
      simpa using (hrest w2 (List.mem_cons_self _ _)).1
    have e : Join (w :: w2 :: rest) [' '] ++ [']'] =
        w ++ (' ' :: (Join (w2 :: rest) [' '] ++ [']'])) := by
      simp [Join]
    rw [e, FieldsAux_append w h1, FieldsAux]
    have sp : isSpace ' ' = true := by decide
    have ne : (cur ++ w).isEmpty = false := by
      cases h : cur ++ w with
      | nil => exact absurd h hne
      | cons _ _ => rfl
    simp only [sp, if_true, ne, Bool.false_eq_true, if_false]
    rw [ih w2 [] hrest hw2 (by simp)]
    simp [closeLast]

theorem Join_closeLast (sep : List Char) : ∀ (l : List (List Char)), l ≠ [] →
    Join (closeLast l) sep = Join l sep ++ [']']
  | [], h => absurd rfl h
  | [a], _ => by simp [closeLast, Join]
  | a :: b :: rest, _ => by
    have ih := Join_closeLast sep (b :: rest) (List.cons_ne_nil _ _)
    cases hc : closeLast (b :: rest) with
    | nil => cases rest <;> simp [closeLast] at hc
    | cons c cs =>
      rw [hc] at ih
      simp only [closeLast, hc, Join, ih, List.append_assoc]

theorem Join_cons_append (pre w sep : List Char) (ws : List (List Char)) :
    Join ((pre ++ w) :: ws) sep = pre ++ Join (w :: ws) sep := by
  cases ws <;> simp [Join]

theorem Join_eq_intercalate (sep : List Char) : ∀ l : List (List Char),
    Join l sep = sep.intercalate l
  | [] => rfl
  | [a] => by simp [Join, List.intercalate]
  | a :: b :: rest => by
    have ih := Join_eq_intercalate sep (b :: rest)
    simp only [Join, ih, List.intercalate, List.intersperse, List.flatten_cons,
      List.append_assoc]

/-- Colon-joined words hold digits, minus signs and colons only. -/
theorem Join_words_chars : ∀ ws : List (List Char), (∀ x ∈ ws, IsWord x) →
    ∀ c ∈ Join ws [':'], c ∈ ':' :: '-' :: digitChars
  | [], _ => by simp [Join]
  | [a], h => fun c hc => List.mem_cons_of_mem _ ((h a (List.mem_cons_self _ _)).2 c hc)
  | a :: b :: rest, h => by
    intro c hc
    have ih := Join_words_chars (b :: rest) (fun x hx => h x (List.mem_cons_of_mem _ hx))
    simp only [Join, List.append_assoc, List.mem_append, List.mem_singleton] at hc
    rcases hc with hc | hc | hc
    · exact List.mem_cons_of_mem _ ((h a (List.mem_cons_self _ _)).2 c hc)
    · rw [hc]
      exact List.mem_cons_self _ _
    · exact ih c hc

theorem Join_words_ne_nil (sep : List Char) (w : List Char) (ws : List (List Char))
    (hw : w ≠ []) : Join (w :: ws) sep ≠ [] := by
  cases ws <;> simp [Join, hw]

/-- Trimming the brackets around a non-empty text without brackets gives it back. -/
theorem Trim_brackets (x : List Char) (hne : x ≠ [])
    (hx : ∀ c ∈ x, c ≠ '[' ∧ c ≠ ']') :
    Trim (['['] ++ x ++ [']']) ['[', ']'] = x := by
  have np : ∀ c ∈ x, (['[', ']'].elem c) = false := by
    intro c hc
    have := hx c hc
    simp [this.1, this.2]
  have drop_front : ∀ (l r : List Char), l ≠ [] → (∀ c ∈ l, (['[', ']'].elem c) = false) →
      (l ++ r).dropWhile (fun c => ['[', ']'].elem c) = l ++ r := by
    intro l r hl hp
    cases l with
    | nil => exact absurd rfl hl
    | cons a t =>
      have ha : ¬ ((fun c => ['[', ']'].elem c) a = true) := by
        simp only [hp a (List.mem_cons_self _ _)]
        simp
      rw [List.cons_append]
      exact List.dropWhile_cons_of_neg ha
  unfold Trim
  have e1 : (['['] ++ x ++ [']']).dropWhile (fun c => ['[', ']'].elem c) = x ++ [']'] := by
    have : (['['] ++ x ++ [']']) = '[' :: (x ++ [']']) := by simp
    rw [this, List.dropWhile_cons_of_pos (by decide)]
    exact drop_front x [']'] hne np
  rw [e1]
  have e2 : (x ++ [']']).reverse = ']' :: (x.reverse ++ []) := by simp
  rw [e2, List.dropWhile_cons_of_pos (by decide)]
  rw [drop_front x.reverse [] (by simpa using hne) (fun c hc => np c (List.mem_reverse.mp hc))]
  simp

/-- The expression returned by `GetFreePorts`, on the collected ports, is their
decimal renderings joined by a colon. -/
theorem render_ports (ports : List Int) :
    Trim (Join (Fields (Sprint ports)) [':']) ['[', ']'] = Join (ports.map itoa) [':'] := by
  cases ports with
  | nil => decide
  | cons p ps =>
    have hw : ∀ x ∈ itoa p :: ps.map itoa, IsWord x := by
      intro x hx
      rcases List.mem_cons.mp hx with rfl | hx
      · exact itoa_word p
      · obtain ⟨q, _, rfl⟩ := List.mem_map.mp hx
        exact itoa_word q
    have f : Fields (Sprint (p :: ps)) = closeLast ((['['] ++ itoa p) :: ps.map itoa) := by
      have e : Sprint (p :: ps) = '[' :: (Join (itoa p :: ps.map itoa) [' '] ++ [']']) := by
        simp [Sprint]
      unfold Fields
      rw [e, FieldsAux]
      have nb : isSpace '[' = false := by decide
      simp only [nb, Bool.false_eq_true, if_false, List.nil_append]
      exact FieldsAux_words (ps.map itoa) (itoa p) ['['] hw (by simp) (by decide)
    rw [f, Join_closeLast [':'] _ (List.cons_ne_nil _ _), Join_cons_append]
    have t := Trim_brackets (Join (itoa p :: ps.map itoa) [':'])
      (Join_words_ne_nil _ _ _ (itoa_word p).1)
      (fun c hc => by
        have m := Join_words_chars _ hw c hc
        rcases List.mem_cons.mp m with rfl | m
        · decide
        · exact ⟨(wordChar_plain c m).2.1, (wordChar_plain c m).2.2.1⟩)
    simpa using t

/-- The loop of `GetFreePorts` when every remaining step succeeds. -/
theorem portsLoop_success (net : NetEnv) : ∀ (ps : List Int) (i : Nat) (ports : List Int)
    (deferred : List Listener),
    (∀ j (h : j < ps.length), StepYields net (i + j) (ps.get ⟨j, h⟩)) →
    (portsLoop net ps.length i ports deferred).1 = some (ports ++ ps) := by
  intro ps
  induction ps with
  | nil => intro i ports deferred _; simp [portsLoop]
  | cons p rest ih =>
    intro i ports deferred h
    obtain ⟨addr, l, h1, h2, h3⟩ := h 0 (by simp)
    simp only [Nat.add_zero] at h1 h2
    simp only [List.get_eq_getElem, List.getElem_cons_zero] at h3
    simp only [List.length_cons, portsLoop, h1, h2, h3]
    rw [ih (i + 1) (ports ++ [p]) (l :: deferred)]
    · simp
    · intro j hj
      have := h (j + 1) (by simpa using hj)
      simpa [Nat.add_assoc, Nat.add_comm 1 j] using this

/-- The loop of `GetFreePorts` when one of the remaining steps fails. -/
theorem portsLoop_failure (net : NetEnv) : ∀ (n i : Nat) (ports : List Int)
    (deferred : List Listener) (j : Nat), j < n → StepFails net (i + j) →
    (portsLoop net n i ports deferred).1 = none := by
  intro n
  induction n with
  | zero => intro i ports deferred j hj; exact absurd hj (Nat.not_lt_zero _)
  | succ n ih =>
    intro i ports deferred j hj hf
    unfold portsLoop
    cases h1 : net.ResolveTCPAddr i "tcp" "localhost:0" with
    | error e => rfl
    | ok addr =>
      simp only
      cases h2 : net.ListenTCP i "tcp" addr with
      | error e => rfl
      | ok l =>
        simp only
        cases j with
        | zero =>
          exfalso
          simp only [Nat.add_zero] at hf
          rcases hf with ⟨e, he⟩ | ⟨a, e, ha, he⟩
          · rw [h1] at he
            cases he
          · rw [h1] at ha
            cases ha
            rw [h2] at he
            cases he
        | succ j =>
          apply ih (i + 1) _ _ j (by omega)
          have : i + 1 + j = i + (j + 1) := by omega
          rw [this]
          exact hf

/-- The rendering `itoa` is the decimal text of the integer. -/
theorem itoa_eq_toString (i : Int) : String.mk (itoa i) = toString i := by
  cases i with
  | ofNat n =>
    have h : ¬ ((Int.ofNat n) < 0) := by simp
    simp only [itoa, h, if_false]
    rfl
  | negSucc n =>
    have h : (Int.negSucc n) < 0 := Int.negSucc_lt_zero n
    simp only [itoa, h, if_true]
    rfl

theorem GetFreePorts_of_some (net : NetEnv) (count : Int) (ps : List Int)
    (h : (portsLoop net count.toNat 0 [] []).1 = some ps) :
    (GetFreePorts net count).1 = String.mk (Join (ps.map itoa) [':']) := by
  unfold GetFreePorts
  rcases hp : portsLoop net count.toNat 0 [] [] with ⟨r, d⟩
  rw [hp] at h
  simp only at h
  subst h
  simp only [render_ports]

theorem GetFreePorts_of_none (net : NetEnv) (count : Int)
    (h : (portsLoop net count.toNat 0 [] []).1 = none) :
    (GetFreePorts net count).1 = "" := by
  unfold GetFreePorts
  rcases hp : portsLoop net count.toNat 0 [] [] with ⟨r, d⟩
  rw [hp] at h
  simp only at h
  subst h
  rfl

/-- C8: when all `count` allocation steps succeed with ports `ps`, `GetFreePorts`
returns exactly the decimal renderings of `ps`, in order, joined by a colon: only
digits, minus signs and colons occur in it, and for `count >= 1` splitting it at the
colons gives back the `count` renderings; for `count <= 0` it returns the empty
string; and when a resolve or listen step fails it returns the empty string.  The
rendering `itoa` is the decimal text `toString` of the integer. -/
theorem GetFreePorts_result (net : NetEnv) (count : Int) :
    (∀ ps : List Int, ps.length = count.toNat →
      (∀ j (h : j < ps.length), StepYields net j (ps.get ⟨j, h⟩)) →
      (GetFreePorts net count).1 = String.mk (Join (ps.map itoa) [':']) ∧
      (GetFreePorts net count).1 = String.mk ([':'].intercalate (ps.map itoa)) ∧
      (∀ c ∈ (GetFreePorts net count).1.data, c ∈ ':' :: '-' :: digitChars) ∧
      (1 ≤ count → (GetFreePorts net count).1.data.splitOn ':' = ps.map itoa ∧
        ((GetFreePorts net count).1.data.splitOn ':').length = count.toNat)) ∧
    (count ≤ 0 → (GetFreePorts net count).1 = "") ∧
    (∀ j : Nat, (j : Int) < count → StepFails net j → (GetFreePorts net count).1 = "") ∧
    (∀ p : Int, String.mk (itoa p) = toString p) := by
  refine ⟨?_, ?_, ?_, itoa_eq_toString⟩
  · intro ps hlen hstep
    have hl := portsLoop_success net ps 0 [] [] (by simpa using hstep)
    rw [hlen] at hl
    simp only [List.nil_append] at hl
    have e := GetFreePorts_of_some net count ps hl
    have hw : ∀ x ∈ ps.map itoa, IsWord x := by
      intro x hx
      obtain ⟨q, _, rfl⟩ := List.mem_map.mp hx
      exact itoa_word q
    refine ⟨e, ?_, ?_, ?_⟩
    · rw [e, Join_eq_intercalate]
    · rw [e]
      exact Join_words_chars _ hw
    · intro hc
      have hne : ps.map itoa ≠ [] := by
        intro hnil
        have : ps.length = 0 := by simpa using hnil
        omega
      have sp : (GetFreePorts net count).1.data.splitOn ':' = ps.map itoa := by
        rw [e, Join_eq_intercalate]
        refine List.splitOn_intercalate _ ':' ?_ hne
        intro l hl hmem
        have := (wordChar_plain ':' ((hw l hl).2 ':' hmem)).2.2.2
        exact this rfl
      refine ⟨sp, ?_⟩
      rw [sp, List.length_map, hlen]
  · intro hc
    have z : count.toNat = 0 := by omega
    rw [GetFreePorts_of_some net count [] (by rw [z]; rfl)]
    rfl
  · intro j hj hf
    apply GetFreePorts_of_none
    exact portsLoop_failure net count.toNat 0 [] [] j (by omega) (by simpa using hf)

/-! ## Instances of the theorems on concrete runs -/

/-- Stopping a state that manages instance 7, with an engine whose `Close` fails. -/
theorem StopXray_closes_once_witness :
    World.managed.coreServer = some 7 ∧
    (StopXray envCloseFails World.managed).2.trace = World.managed.trace ++ [.Close 7] ∧
    (StopXray envCloseFails World.managed).2.coreServer = none ∧
    (StopXray envCloseFails World.managed).1 = "close failed" :=
  ⟨rfl, (StopXray_closes_once envCloseFails World.managed 7 rfl).1,
    (StopXray_closes_once envCloseFails World.managed 7 rfl).2.1,
    (StopXray_closes_once envCloseFails World.managed 7 rfl).2.2.1 ⟨"close failed"⟩ rfl⟩

/-- Stopping the initial state, and stopping twice a state that manages instance 7. -/
theorem StopXray_idempotent_witness :
    World.init.coreServer = none ∧ StopXray envOK World.init = ("", World.init) ∧
    StopXray envOK (StopXray envOK World.managed).2 = ("", (StopXray envOK World.managed).2) :=
  ⟨rfl, (StopXray_idempotent envOK World.init).1 rfl,
    (StopXray_idempotent envOK World.managed).2.2⟩

/-- Running with a rejected configuration, and with an instance whose `Start` fails. -/
theorem RunXray_failure_witness :
    (envBadConfig.LoadConfig (initEnv "assets" "" World.init).trace "json" "config.json" =
      .error ⟨"failed to load config"⟩) ∧
    (RunXray envBadConfig "assets" "config.json" "" World.init =
      ("failed to load config",
        (initEnv "assets" "" World.init).emit (.LoadConfig "json" "config.json"))) ∧
    (envStartFails.Start
      (((initEnv "assets" "" World.init).emit (.LoadConfig "json" "config.json")).emit
        (.New 0)).trace 7 = some ⟨"failed to listen"⟩) ∧
    (RunXray envStartFails "assets" "config.json" "" World.init =
      ("failed to listen",
        (((initEnv "assets" "" World.init).emit (.LoadConfig "json" "config.json")).emit
          (.New 0)).emit (.Start 7))) :=
  ⟨rfl,
    ((RunXray_failure envBadConfig "assets" "config.json" "" World.init).1
      ⟨"failed to load config"⟩ rfl).1,
    rfl,
    ((RunXray_failure envStartFails "assets" "config.json" "" World.init).2.2.1 0 7
      ⟨"failed to listen"⟩ rfl rfl rfl).1⟩

/-- Three probes of 120 ms, failure, 81 ms: the estimate is the truncated mean of 120
and 81. -/
theorem measureDelay_three_probes_witness :
    (coreHTTPRequest envMixed ⟨7, msDuration 5000, true⟩ "http://cp.cloudflare.com/"
      World.init).1 = some 120 ∧
    (measureDelay envMixed (some 7) (msDuration 5000) "http://cp.cloudflare.com/"
      World.init).1 = some (Int.tdiv (120 + 81) 2) :=
  ⟨by decide,
    ((measureDelay_three_probes envMixed 7 (msDuration 5000) "http://cp.cloudflare.com/"
      World.init).1 120 pingDelayTimeout 81 _ _ _ rfl rfl rfl).2.2.2.2
      (by decide) rfl (by decide)⟩

/-- One-shot probing with a rejected configuration, and with an instance whose `Start` fails. -/
theorem Ping_hard_failure_witness :
    (startXray envBadConfig "config.json" (initEnv "assets" "" World.init) =
      (.error ⟨"failed to load config"⟩,
        ⟨none, [.Setenv "xray.location.asset" "assets", .LoadConfig "json" "config.json"]⟩)) ∧
    (Ping envBadConfig "assets" "config.json" 5 "http://cp.cloudflare.com/" World.init =
      (some pingDelayError,
        ⟨none, [.Setenv "xray.location.asset" "assets", .LoadConfig "json" "config.json"]⟩)) ∧
    (Ping envStartFails "assets" "config.json" 5 "http://cp.cloudflare.com/" World.init =
      (some pingDelayError,
        World.emit ⟨none, [.Setenv "xray.location.asset" "assets",
          .LoadConfig "json" "config.json", .New 0]⟩ (.Start 7))) :=
  ⟨rfl,
    ((Ping_hard_failure envBadConfig "assets" "config.json" 5 "http://cp.cloudflare.com/"
      World.init).1 _ _ rfl).1,
    ((Ping_hard_failure envStartFails "assets" "config.json" 5 "http://cp.cloudflare.com/"
      World.init).2.1 7 _ ⟨"failed to listen"⟩ rfl rfl).1⟩

/-- One-shot probing through a started instance 7: three requests and then its
`Close`; at a url that `http.NewRequest` rejects, a panic after its `Close`. -/
theorem Ping_closes_once_when_started_witness :
    (startXray envMixed "config.json" (initEnv "assets" "" World.init) =
      (.ok 7, ⟨none, [.Setenv "xray.location.asset" "assets",
        .LoadConfig "json" "config.json", .New 0]⟩)) ∧
    (∃ s0, (Ping envMixed "assets" "config.json" 5 "http://cp.cloudflare.com/"
        World.init).2.trace = World.init.trace ++ (s0 ++ [.Start 7,
          .Do 7 (Duration.ofInt (Second * wrap64 5)).ns ⟨"GET", "http://cp.cloudflare.com/"⟩,
          .Do 7 (Duration.ofInt (Second * wrap64 5)).ns ⟨"GET", "http://cp.cloudflare.com/"⟩,
          .Do 7 (Duration.ofInt (Second * wrap64 5)).ns ⟨"GET", "http://cp.cloudflare.com/"⟩,
          .Close 7])) ∧
    (∃ s0, (Ping envMixed "assets" "config.json" 5 "http://bad host/" World.init).1 = none ∧
      (Ping envMixed "assets" "config.json" 5 "http://bad host/" World.init).2.trace =
        World.init.trace ++ (s0 ++ [.Start 7, .Close 7])) := by
  refine ⟨rfl, ?_, ?_⟩
  · obtain ⟨s0, _, _, h, _⟩ :=
      (Ping_closes_once_when_started envMixed "assets" "config.json" 5
        "http://cp.cloudflare.com/" World.init).1 7 _ rfl rfl
    exact ⟨s0, (h ⟨"GET", "http://cp.cloudflare.com/"⟩ rfl).2.1⟩
  · obtain ⟨s0, _, _, _, h⟩ :=
      (Ping_closes_once_when_started envMixed "assets" "config.json" 5
        "http://bad host/" World.init).1 7 _ rfl rfl
    exact ⟨s0, (h ⟨"parse: invalid character in host name"⟩ rfl).1,
      (h ⟨"parse: invalid character in host name"⟩ rfl).2.1⟩

/-- Two ports handed out in order, and a second listen step that fails. -/
theorem GetFreePorts_result_witness :
    (GetFreePorts (netOf [8080, 443]) 2).1 = String.mk (Join ([8080, 443].map itoa) [':']) ∧
    (GetFreePorts (netOf [8080]) 2).1 = "" := by
  refine ⟨((GetFreePorts_result (netOf [8080, 443]) 2).1 [8080, 443] rfl ?_).1,
    (GetFreePorts_result (netOf [8080]) 2).2.2.1 1 (by decide) ?_⟩
  · intro j h
    match j, h with
    | 0, _ => exact ⟨0, ⟨8080⟩, rfl, rfl, rfl⟩
    | 1, _ => exact ⟨1, ⟨443⟩, rfl, rfl, rfl⟩
  · exact Or.inr ⟨1, ⟨"listen tcp: too many open files"⟩, rfl, rfl⟩

/-- Three probes of 120 ms, failure, 81 ms: the estimate is a real measurement. -/
theorem measureDelay_within_samples_witness :
    ∃ v, (measureDelay envMixed (some 7) (msDuration 5000) "http://cp.cloudflare.com/"
        World.init).1 = some v ∧ 0 ≤ v ∧ v < 10000 := by
  obtain ⟨v, hv, _, h⟩ :=
    ((measureDelay_within_samples envMixed 7 (msDuration 5000) "http://cp.cloudflare.com/"
      World.init).1 120 pingDelayTimeout 81 _ _ _ rfl rfl rfl).1 (by decide)
  exact ⟨v, hv, (h (by decide)).1, (h (by decide)).2.1⟩

/-- Three error-free probes of exactly 11000 ms each. -/
theorem measureDelay_exact_timeout_excluded_witness :
    (envSlow.NewRequest "GET" "http://cp.cloudflare.com/" =
      .ok ⟨"GET", "http://cp.cloudflare.com/"⟩) ∧
    (envSlow.Do World.init.trace 7 (msDuration 15000).ns ⟨"GET", "http://cp.cloudflare.com/"⟩ =
      .ok (msDuration 11000)) ∧
    (coreHTTPRequest envSlow ⟨7, msDuration 15000, true⟩ "http://cp.cloudflare.com/"
      World.init).1 = some pingDelayTimeout ∧
    (measureDelay envSlow (some 7) (msDuration 15000) "http://cp.cloudflare.com/"
      World.init).1 = some pingDelayTimeout :=
  ⟨rfl, rfl,
    (measureDelay_exact_timeout_excluded.2.1 envSlow ⟨7, msDuration 15000, true⟩
      "http://cp.cloudflare.com/" World.init ⟨"GET", "http://cp.cloudflare.com/"⟩
      (msDuration 11000) ⟨0, 0, false⟩ rfl rfl (by decide)).1,
    measureDelay_exact_timeout_excluded.2.2.1 envSlow 7 (msDuration 15000)
      "http://cp.cloudflare.com/" World.init ⟨"GET", "http://cp.cloudflare.com/"⟩ rfl
      (fun _ => ⟨msDuration 11000, rfl, by decide⟩)⟩

end Libxray
